import Mathlib

/-!
go-binder: request-body binding.

A shallow embedding of package `binder` (`bind.go`, `binders.go`,
`form_mapper.go`) together with the parts of the Go standard library the
package calls (`strings.Contains`, `strconv.ParseBool/ParseInt/ParseUint`,
the `reflect` setters) and, for the form tests, `url.ParseQuery`.

Conventions of the embedding:

* Go strings are Lean strings; the standard-library parsers inspect them
  character by character (every decision they take concerns ASCII bytes only).
* Go maps are partial functions `String → Option _`; the nil map is the
  function that is `none` everywhere.
* A pointer to a struct (the `target` of the binder) is a `Record`; a call
  that mutates the target in place returns the record after the call, also
  when it returns an error.
* A Go panic is the outcome `Res.panic`.
* Machine integers are `Nat`/`Int` with explicit reduction modulo `2^w`.
* Floating-point numbers are kept abstract (`GoFloat`); parsing them is a
  parameter of the embedding (`Env.parseFloat`).
-/

namespace Binder

/-! ## reflect: kinds, types, values -/

/-- The kinds of `reflect.Kind`, in the order of the Go declaration. -/
inductive Kind where
  | Invalid | Bool | Int | Int8 | Int16 | Int32 | Int64
  | Uint | Uint8 | Uint16 | Uint32 | Uint64 | Uintptr
  | Float32 | Float64 | Complex64 | Complex128
  | Array | Chan | Func | Interface | Map | Pointer | Slice | String | Struct
  | UnsafePointer
  deriving DecidableEq, Repr

/-- The types of non-struct fields and of slice elements, up to what the binder
can observe: the kind, whether the type is `*multipart.FileHeader`, and the
element type of a slice type. `basic k` stands for any type of kind `k` that
is neither a slice type nor `*multipart.FileHeader`. -/
inductive Ty where
  | basic (k : Kind)
  | fileHeaderPtr
  | slice (elem : Ty)
  deriving DecidableEq, Repr

/-- The kind of a type: `Type.Kind()`. -/
def Ty.kind : Ty → Kind
  | .basic k => k
  | .fileHeaderPtr => Kind.Pointer
  | .slice _ => Kind.Slice

/-- The element type of a slice type: `Type.Elem()`; the binder consults it on
slice types only, `none` stands for the panic of `reflect` elsewhere. -/
def Ty.elem : Ty → Option Ty
  | .slice e => some e
  | _ => none

/-- A `multipart.FileHeader`: what the tests read back from it. -/
structure FileHeader where
  Filename : String
  content : String
  deriving DecidableEq, Repr

/-- An abstract floating-point number (its IEEE-754 bit pattern). -/
structure GoFloat where
  bits : Nat
  deriving DecidableEq, Repr

/-- The floating-point constant `0.0`. -/
def GoFloat.zero : GoFloat := ⟨0⟩

/-- The contents of a memory cell of non-struct type. `other` is a value the
binder never reads or writes (channel, map, complex number, ...); the nil slice
is `slice []` and the nil pointer is `file none`. -/
inductive Value where
  | string (s : String)
  | bool (b : Bool)
  | int (n : Int)
  | uint (n : Nat)
  | float (x : GoFloat)
  | file (h : Option FileHeader)
  | slice (vs : List Value)
  | other
  deriving Repr

/-- A settable `reflect.Value` of non-struct type: its type and its contents. -/
structure Cell where
  ty : Ty
  val : Value
  deriving Repr

/-- The kind of a cell: `Value.Kind()`. -/
def Cell.Kind (c : Cell) : Kind := c.ty.kind

/-- The zero value of a type, as `reflect.MakeSlice` fills a new slice. -/
def Ty.zero : Ty → Value
  | .basic Kind.String => Value.string ""
  | .basic Kind.Bool => Value.bool false
  | .basic Kind.Int => Value.int 0
  | .basic Kind.Int8 => Value.int 0
  | .basic Kind.Int16 => Value.int 0
  | .basic Kind.Int32 => Value.int 0
  | .basic Kind.Int64 => Value.int 0
  | .basic Kind.Uint => Value.uint 0
  | .basic Kind.Uint8 => Value.uint 0
  | .basic Kind.Uint16 => Value.uint 0
  | .basic Kind.Uint32 => Value.uint 0
  | .basic Kind.Uint64 => Value.uint 0
  | .basic Kind.Uintptr => Value.uint 0
  | .basic Kind.Float32 => Value.float GoFloat.zero
  | .basic Kind.Float64 => Value.float GoFloat.zero
  | .basic _ => Value.other
  | .fileHeaderPtr => Value.file none
  | .slice _ => Value.slice []

/-- What `reflect.StructField` and `Value.CanSet` say about one field: its
name, the value of `Tag.Get("form")`, and whether the field can be set (it is
exported). -/
structure StructField where
  Name : String
  formTag : String
  CanSet : Bool
  deriving DecidableEq, Repr

/-- A struct value as the list of its fields in declaration order. A field of
kind `Struct` is `nested` (with the fields of the inner struct, embedded or
named), every other field is a `leaf`. -/
inductive Record where
  | nil
  | leaf (fieldType : StructField) (fieldValue : Cell) (rest : Record)
  | nested (fieldType : StructField) (inner : Record) (rest : Record)
  deriving Repr

/-! ## Errors and outcomes -/

/-- The error values of `strconv`: `ErrSyntax`, `ErrRange`, and the error of an
invalid bit size. -/
inductive NumErr where
  | ErrSyntax
  | ErrRange
  | invalidBitSize (bitSize : Nat)
  deriving DecidableEq, Repr

/-- The errors the binder can return: its three package-level error values, a
`*strconv.NumError` (function, offending string, cause), and the errors of the
decoders and parsers of the standard library, which are never identical to a
package-level error value of the binder. -/
inductive Error where
  | errMissingContentType
  | errUnsupportedContentType
  | errUnknownFieldType
  | numError (Func : String) (Num : String) (Err : NumErr)
  | external (msg : String)
  deriving DecidableEq, Repr

/-- The outcome of a call that may mutate its target: a panic, or the target
after the call with the returned error (`none` is the nil error). -/
inductive Res (α : Type) where
  | panic : Res α
  | ret (state : α) (err : Option Error) : Res α
  deriving Repr

/-- The returned error of an outcome, if the call returned. -/
def Res.err {α : Type} : Res α → Option (Option Error)
  | .panic => none
  | .ret _ e => some e

/-- Apply a function to the state of an outcome. -/
def Res.map {α β : Type} (f : α → β) : Res α → Res β
  | .panic => .panic
  | .ret s e => .ret (f s) e

/-! ## strings, strconv -/

/-- The function `strings.Contains(s, substr)`: some suffix of `s` starts with
`substr`. -/
def containsChars (substr : List Char) : List Char → Bool
  | [] => substr.isEmpty
  | c :: cs => substr.isPrefixOf (c :: cs) || containsChars substr cs

/-- The function `strings.Contains`. -/
def stringsContains (s substr : String) : Bool :=
  containsChars substr.data s.data

/-- The function `strconv.ParseBool`. -/
def ParseBool (str : String) : Bool × Option Error :=
  if str = "1" ∨ str = "t" ∨ str = "T" ∨ str = "true" ∨ str = "TRUE" ∨ str = "True" then
    (true, none)
  else if str = "0" ∨ str = "f" ∨ str = "F" ∨ str = "false" ∨ str = "FALSE" ∨ str = "False" then
    (false, none)
  else
    (false, some (Error.numError "ParseBool" str NumErr.ErrSyntax))

/-- The constant `strconv.IntSize` on a 64-bit or a 32-bit platform. -/
def IntSize (is64 : Bool) : Nat := if is64 then 64 else 32

/-- The constant `maxUint64`. -/
def maxUint64 : Nat := 2 ^ 64 - 1

/-- The byte operation `lower(c) = c | ('x' - 'X')` of `strconv`. -/
def lower (c : Nat) : Nat := c ||| 32

/-- The digit value `d` that the loop of `strconv.ParseUint` computes for one
byte when the base is not 0; `none` is its `default:` branch (syntax error). -/
def digitVal (c : Char) : Option Nat :=
  if 48 ≤ c.toNat ∧ c.toNat ≤ 57 then some (c.toNat - 48)
  else if 97 ≤ lower c.toNat ∧ lower c.toNat ≤ 122 then some (lower c.toNat - 97 + 10)
  else none

/-- The loop of `strconv.ParseUint` for base 10 over the remaining bytes, with
the accumulator `n : uint64`. It returns the value and the cause of the
error, if any. -/
def parseUintLoop (maxVal : Nat) : List Char → Nat → Nat × Option NumErr
  | [], n => (n, none)
  | c :: cs, n =>
    match digitVal c with
    | none => (0, some NumErr.ErrSyntax)
    | some d =>
      if d ≥ 10 then (0, some NumErr.ErrSyntax)
      else if n ≥ maxUint64 / 10 + 1 then (maxVal, some NumErr.ErrRange)
      else
        let n10 := (n * 10) % 2 ^ 64
        let n1 := (n10 + d) % 2 ^ 64
        if n1 < n10 ∨ n1 > maxVal then (maxVal, some NumErr.ErrRange)
        else parseUintLoop maxVal cs n1

/-- The function `strconv.ParseUint(s, 10, bitSize)`, returning the value and
the cause of the error; the caller wraps the cause in a `NumError`. -/
def parseUintCore (is64 : Bool) (s : List Char) (bitSize : Nat) : Nat × Option NumErr :=
  if s = [] then (0, some NumErr.ErrSyntax)
  else
    let bitSize1 := if bitSize = 0 then IntSize is64 else bitSize
    if bitSize1 > 64 then (0, some (NumErr.invalidBitSize bitSize1))
    else
      let maxVal := (2 ^ bitSize1 % 2 ^ 64 + (2 ^ 64 - 1)) % 2 ^ 64
      parseUintLoop maxVal s 0

/-- The function `strconv.ParseUint(s, 10, bitSize)`. -/
def ParseUint (is64 : Bool) (s : String) (bitSize : Nat) : Nat × Option Error :=
  match parseUintCore is64 s.data bitSize with
  | (n, none) => (n, none)
  | (n, some e) => (n, some (Error.numError "ParseUint" s e))

/-- The conversion `int64(x)` of an integer: reduction to 64-bit two's
complement; more generally the conversion to a signed type of the given
width. -/
def truncInt (bits : Nat) (x : Int) : Int :=
  let r := x % 2 ^ bits
  if r < 2 ^ (bits - 1) then r else r - 2 ^ bits

/-- The sign test of `strconv.ParseInt`: `s[0] == '-'`. -/
def isNeg (s : List Char) : Bool := s.head? = some '-'

/-- The string `strconv.ParseInt` hands to `ParseUint`: `s` without a leading
sign. -/
def signDigits (s : List Char) : List Char :=
  if s.head? = some '+' then s.tail
  else if s.head? = some '-' then s.tail
  else s

/-- The range check at the end of `strconv.ParseInt`, on the unsigned value
`un` that `ParseUint` returned (with no error or with a range error). -/
def parseIntRange (is64 : Bool) (s : String) (bitSize : Nat) (neg : Bool) (un : Nat) :
    Int × Option Error :=
  let bitSize1 := if bitSize = 0 then IntSize is64 else bitSize
  let cutoff : Nat := 2 ^ (bitSize1 - 1) % 2 ^ 64
  if neg = false ∧ un ≥ cutoff then
    (truncInt 64 (cutoff - 1 : Nat), some (Error.numError "ParseInt" s NumErr.ErrRange))
  else if neg = true ∧ un > cutoff then
    (truncInt 64 (-(truncInt 64 cutoff)), some (Error.numError "ParseInt" s NumErr.ErrRange))
  else
    (if neg then truncInt 64 (-(truncInt 64 un)) else truncInt 64 un, none)

/-- The part of `strconv.ParseInt` after the call of `ParseUint`, whose result
is `r`: an error other than a range error is returned under the name of
`ParseInt`, everything else goes through the range check. -/
def parseIntFinish (is64 : Bool) (s : String) (bitSize : Nat) (neg : Bool) :
    Nat × Option NumErr → Int × Option Error
  | (_, some NumErr.ErrSyntax) => (0, some (Error.numError "ParseInt" s NumErr.ErrSyntax))
  | (_, some (NumErr.invalidBitSize b)) =>
    (0, some (Error.numError "ParseInt" s (NumErr.invalidBitSize b)))
  | (un, _) => parseIntRange is64 s bitSize neg un

/-- The function `strconv.ParseInt(s, 10, bitSize)`. -/
def ParseInt (is64 : Bool) (s : String) (bitSize : Nat) : Int × Option Error :=
  if s = "" then (0, some (Error.numError "ParseInt" s NumErr.ErrSyntax))
  else parseIntFinish is64 s bitSize (isNeg s.data) (parseUintCore is64 (signDigits s.data) bitSize)

/-! ## reflect: setters -/

/-- The method `Value.SetString`; `none` is the panic on a cell of another kind. -/
def Cell.SetString (v : Cell) (x : String) : Option Cell :=
  match v.Kind with
  | Kind.String => some ⟨v.ty, Value.string x⟩
  | _ => none

/-- The method `Value.SetBool`; `none` is the panic on a cell of another kind. -/
def Cell.SetBool (v : Cell) (x : Bool) : Option Cell :=
  match v.Kind with
  | Kind.Bool => some ⟨v.ty, Value.bool x⟩
  | _ => none

/-- The method `Value.SetInt(x int64)`: it stores `x` converted to the type of
the cell; `none` is the panic on a cell of a non-integer kind. -/
def Cell.SetInt (is64 : Bool) (v : Cell) (x : Int) : Option Cell :=
  match v.Kind with
  | Kind.Int => some ⟨v.ty, Value.int (truncInt (IntSize is64) x)⟩
  | Kind.Int8 => some ⟨v.ty, Value.int (truncInt 8 x)⟩
  | Kind.Int16 => some ⟨v.ty, Value.int (truncInt 16 x)⟩
  | Kind.Int32 => some ⟨v.ty, Value.int (truncInt 32 x)⟩
  | Kind.Int64 => some ⟨v.ty, Value.int (truncInt 64 x)⟩
  | _ => none

/-- The method `Value.SetUint(x uint64)`: it stores `x` converted to the type
of the cell; `none` is the panic on a cell of another kind. -/
def Cell.SetUint (is64 : Bool) (v : Cell) (x : Nat) : Option Cell :=
  match v.Kind with
  | Kind.Uint => some ⟨v.ty, Value.uint (x % 2 ^ IntSize is64)⟩
  | Kind.Uintptr => some ⟨v.ty, Value.uint (x % 2 ^ IntSize is64)⟩
  | Kind.Uint8 => some ⟨v.ty, Value.uint (x % 2 ^ 8)⟩
  | Kind.Uint16 => some ⟨v.ty, Value.uint (x % 2 ^ 16)⟩
  | Kind.Uint32 => some ⟨v.ty, Value.uint (x % 2 ^ 32)⟩
  | Kind.Uint64 => some ⟨v.ty, Value.uint (x % 2 ^ 64)⟩
  | _ => none

/-- The method `Value.SetFloat(x float64)`; `none` is the panic on a cell of
another kind. A `float32` cell receives `float32(x)`, which is `x` itself for
the results of `ParseFloat(_, 32)` and for `0.0`. -/
def Cell.SetFloat (v : Cell) (x : GoFloat) : Option Cell :=
  match v.Kind with
  | Kind.Float32 => some ⟨v.ty, Value.float x⟩
  | Kind.Float64 => some ⟨v.ty, Value.float x⟩
  | _ => none

/-- The method `Value.Set` with a value of the type of the cell. -/
def Cell.Set (v : Cell) (x : Value) : Cell := ⟨v.ty, x⟩

/-- A setter that returned, or the panic of a setter that did not. -/
def setDone : Option Cell → Res Cell
  | none => Res.panic
  | some f => Res.ret f none

/-! ## The environment: platform and standard-library collaborators -/

/-- The type `url.Values` (also `multipart.Form.Value`): key to values. -/
abbrev Values := String → Option (List String)

/-- The type of `multipart.Form.File`: key to file headers. -/
abbrev Files := String → Option (List FileHeader)

/-- An `*http.Request`: its header map and its body (`none` is the nil body). -/
structure Request where
  Header : String → Option (List String)
  Body : Option String

/-- What the binder takes from outside the package: the platform word size,
`strconv.ParseFloat`, the JSON and XML decoders, and the form parsers of
`net/http`. The decoders return the target after decoding and an error
message; the parsers return an error message or the parsed maps. -/
structure Env where
  is64 : Bool
  parseFloat : String → Nat → Except NumErr GoFloat
  jsonDecode : Request → Record → Record × Option String
  xmlDecode : Request → Record → Record × Option String
  parseForm : Request → Except String Values
  parseMultipartForm : Request → Int → Except String (Values × Files)

/-! ## form_mapper.go -/

/-- The variable `errUnknownFieldType`. -/
def errUnknownFieldType : Error := Error.errUnknownFieldType

/-- The function `setBool`. -/
def setBool (field : Cell) (value : String) : Res Cell :=
  if value = "" then setDone (field.SetBool false)
  else
    match ParseBool value with
    | (boolValue, none) => setDone (field.SetBool boolValue)
    | (_, some err) => Res.ret field (some err)

/-- The function `setInt`. -/
def setInt (env : Env) (field : Cell) (value : String) (size : Nat) : Res Cell :=
  if value = "" then setDone (field.SetInt env.is64 0)
  else
    match ParseInt env.is64 value size with
    | (intValue, none) => setDone (field.SetInt env.is64 intValue)
    | (_, some err) => Res.ret field (some err)

/-- The function `setUint`. -/
def setUint (env : Env) (field : Cell) (value : String) (size : Nat) : Res Cell :=
  if value = "" then setDone (field.SetUint env.is64 0)
  else
    match ParseUint env.is64 value size with
    | (uintValue, none) => setDone (field.SetUint env.is64 uintValue)
    | (_, some err) => Res.ret field (some err)

/-- The function `setFloat`. -/
def setFloat (env : Env) (field : Cell) (value : String) (size : Nat) : Res Cell :=
  if value = "" then setDone (field.SetFloat GoFloat.zero)
  else
    match env.parseFloat value size with
    | Except.ok floatValue => setDone (field.SetFloat floatValue)
    | Except.error e => Res.ret field (some (Error.numError "ParseFloat" value e))

/-- The function `setField`. -/
def setField (env : Env) (fieldKind : Kind) (field : Cell) (value : String) : Res Cell :=
  match fieldKind with
  | Kind.String => setDone (field.SetString value)
  | Kind.Bool => setBool field value
  | Kind.Int => setInt env field value 0
  | Kind.Int8 => setInt env field value 8
  | Kind.Int16 => setInt env field value 16
  | Kind.Int32 => setInt env field value 32
  | Kind.Int64 => setInt env field value 64
  | Kind.Uint => setUint env field value 0
  | Kind.Uint8 => setUint env field value 8
  | Kind.Uint16 => setUint env field value 16
  | Kind.Uint32 => setUint env field value 32
  | Kind.Uint64 => setUint env field value 64
  | Kind.Float32 => setFloat env field value 32
  | Kind.Float64 => setFloat env field value 64
  | _ => Res.ret field (some errUnknownFieldType)

/-- The loop of `setSlice` over the elements `value[i], value[i+1], ...`: each
element of the new slice starts as the zero value of the element type and is
set by `setField`; the first error ends the loop. -/
def setSliceLoop (env : Env) (sliceKind : Kind) (elemTy : Ty) : List String → Res (List Value)
  | [] => Res.ret [] none
  | v :: vs =>
    match setField env sliceKind ⟨elemTy, elemTy.zero⟩ v with
    | Res.panic => Res.panic
    | Res.ret _ (some err) => Res.ret [] (some err)
    | Res.ret elem none =>
      match setSliceLoop env sliceKind elemTy vs with
      | Res.panic => Res.panic
      | Res.ret _ (some err) => Res.ret [] (some err)
      | Res.ret elems none => Res.ret (elem.val :: elems) none

/-- The function `setSlice`. -/
def setSlice (env : Env) (field : Cell) (value : List String) : Res Cell :=
  match field.ty.elem with
  | none => Res.panic
  | some elemTy =>
    match setSliceLoop env elemTy.kind elemTy value with
    | Res.panic => Res.panic
    | Res.ret _ (some err) => Res.ret field (some err)
    | Res.ret slice none => Res.ret (field.Set (Value.slice slice)) none

/-- The text half of the loop body of `formToStruct` (source lines 40-53) for
a field with key `fieldKey`. -/
def bindText (env : Env) (form : Values) (fieldKey : String) (fieldValue : Cell) : Res Cell :=
  match form fieldKey with
  | none => Res.ret fieldValue none
  | some formValue =>
    if fieldValue.Kind = Kind.Slice ∧ formValue.length > 0 then
      setSlice env fieldValue formValue
    else
      match formValue with
      | [] => Res.panic
      | v0 :: _ => setField env fieldValue.ty.kind fieldValue v0

/-- The file half of the loop body of `formToStruct` (source lines 55-71). -/
def bindFile (formFiles : Files) (fieldKey : String) (fieldValue : Cell) : Res Cell :=
  match formFiles fieldKey with
  | none => Res.ret fieldValue none
  | some formFile =>
    if fieldValue.Kind = Kind.Slice ∧ formFile.length > 0
        ∧ fieldValue.ty.elem = some Ty.fileHeaderPtr then
      Res.ret (fieldValue.Set (Value.slice (formFile.map (fun fh => Value.file (some fh))))) none
    else if fieldValue.ty = Ty.fileHeaderPtr then
      match formFile with
      | [] => Res.panic
      | f0 :: _ => Res.ret (fieldValue.Set (Value.file (some f0))) none
    else Res.ret fieldValue none

/-- The loop body of `formToStruct` for a settable field that is not a struct
and has the non-empty key `fieldKey` (source lines 40-71). -/
def bindField (env : Env) (form : Values) (formFiles : Files) (fieldKey : String)
    (fieldValue : Cell) : Res Cell :=
  match bindText env form fieldKey fieldValue with
  | Res.panic => Res.panic
  | Res.ret fv (some err) => Res.ret fv (some err)
  | Res.ret fv none => bindFile formFiles fieldKey fv

/-- The function `formToStruct`: the loop over the fields of the target, as a
recursion over the remaining fields. -/
def formToStruct (env : Env) (form : Values) (formFiles : Files) : Record → Res Record
  | Record.nil => Res.ret Record.nil none
  | Record.leaf fieldType fieldValue rest =>
    if fieldType.CanSet = false then
      (formToStruct env form formFiles rest).map (Record.leaf fieldType fieldValue)
    else if fieldType.formTag = "" then
      (formToStruct env form formFiles rest).map (Record.leaf fieldType fieldValue)
    else
      match bindField env form formFiles fieldType.formTag fieldValue with
      | Res.panic => Res.panic
      | Res.ret fv (some err) => Res.ret (Record.leaf fieldType fv rest) (some err)
      | Res.ret fv none =>
        (formToStruct env form formFiles rest).map (Record.leaf fieldType fv)
  | Record.nested fieldType inner rest =>
    if fieldType.CanSet = false then
      (formToStruct env form formFiles rest).map (Record.nested fieldType inner)
    else
      match formToStruct env form formFiles inner with
      | Res.panic => Res.panic
      | Res.ret inner1 (some err) => Res.ret (Record.nested fieldType inner1 rest) (some err)
      | Res.ret inner1 none =>
        (formToStruct env form formFiles rest).map (Record.nested fieldType inner1)

/-! ## binders.go -/

/-- The constant `multipartFormMaxMemory` (16 MB). -/
def multipartFormMaxMemory : Int := 1024 * 1024 * 16

/-- The result of a standard-library decoder as an outcome of the binder. -/
def decoded (r : Record × Option String) : Res Record :=
  Res.ret r.1 (r.2.map Error.external)

/-- The function `bindJSON`. -/
def bindJSON (env : Env) (r : Request) (target : Record) : Res Record :=
  decoded (env.jsonDecode r target)

/-- The function `bindXML`. -/
def bindXML (env : Env) (r : Request) (target : Record) : Res Record :=
  decoded (env.xmlDecode r target)

/-- The function `bindForm`. -/
def bindForm (env : Env) (r : Request) (target : Record) : Res Record :=
  match env.parseForm r with
  | Except.error msg => Res.ret target (some (Error.external msg))
  | Except.ok form => formToStruct env form (fun _ => none) target

/-- The function `bindMultipartForm`. -/
def bindMultipartForm (env : Env) (r : Request) (target : Record) : Res Record :=
  match env.parseMultipartForm r multipartFormMaxMemory with
  | Except.error msg => Res.ret target (some (Error.external msg))
  | Except.ok (value, file) => formToStruct env value file target

/-! ## bind.go -/

/-- The constant `jsonType`. -/
def jsonType : String := "json"
/-- The constant `xmlType`. -/
def xmlType : String := "xml"
/-- The constant `formType`. -/
def formType : String := "form-urlencoded"
/-- The constant `multipartType`. -/
def multipartType : String := "multipart/form-data"

/-- The variable `errMissingContentType`. -/
def errMissingContentType : Error := Error.errMissingContentType
/-- The variable `errUnsupportedContentType`. -/
def errUnsupportedContentType : Error := Error.errUnsupportedContentType

/-- The method `Header.Get` on a canonical key: the first value of the key,
or the empty string. -/
def headerGet (h : String → Option (List String)) (key : String) : String :=
  match h key with
  | some (v :: _) => v
  | _ => ""

/-- The function `BindBody`. -/
def BindBody (env : Env) (r : Request) (target : Record) : Res Record :=
  let contentType := headerGet r.Header "Content-Type"
  if contentType = "" then Res.ret target (some errMissingContentType)
  else if stringsContains contentType jsonType then bindJSON env r target
  else if stringsContains contentType xmlType then bindXML env r target
  else if stringsContains contentType formType then bindForm env r target
  else if stringsContains contentType multipartType then bindMultipartForm env r target
  else Res.ret target (some errUnsupportedContentType)

/-- The errors raised by the field mapper itself: `errUnknownFieldType` and
the errors of `strconv`. -/
def Error.isFieldError : Error → Bool
  | .errUnknownFieldType => true
  | .numError _ _ _ => true
  | _ => false

/-! ## Operations on records (specification side) -/

/-- The record whose fields are those of `a` followed by those of `b`. -/
def Record.append : Record → Record → Record
  | Record.nil, b => b
  | Record.leaf fieldType fieldValue rest, b => Record.leaf fieldType fieldValue (rest.append b)
  | Record.nested fieldType inner rest, b => Record.nested fieldType inner (rest.append b)

/-- The leaf fields of a record in declaration order, those of nested structs
at the position of the nested field. -/
def Record.leaves : Record → List (StructField × Cell)
  | Record.nil => []
  | Record.leaf fieldType fieldValue rest => (fieldType, fieldValue) :: rest.leaves
  | Record.nested _ inner rest => inner.leaves ++ rest.leaves

/-- The leaf fields without a form tag, at every depth, in declaration order. -/
def Record.untagged : Record → List (StructField × Cell)
  | Record.nil => []
  | Record.leaf fieldType fieldValue rest =>
    if fieldType.formTag = "" then (fieldType, fieldValue) :: rest.untagged else rest.untagged
  | Record.nested _ inner rest => inner.untagged ++ rest.untagged

/-- The record without its leaf fields that have no form tag, at every depth. -/
def Record.stripUntagged : Record → Record
  | Record.nil => Record.nil
  | Record.leaf fieldType fieldValue rest =>
    if fieldType.formTag = "" then rest.stripUntagged
    else Record.leaf fieldType fieldValue rest.stripUntagged
  | Record.nested fieldType inner rest =>
    Record.nested fieldType inner.stripUntagged rest.stripUntagged

/-- The conversion of one raw string for an element type: what `setField`
stores into a fresh element of that type. -/
def converted (env : Env) (elemTy : Ty) (raw : String) : Value :=
  match setField env elemTy.kind ⟨elemTy, elemTy.zero⟩ raw with
  | Res.ret elem _ => elem.val
  | Res.panic => Value.other

/-- The conversion of one raw string for an element type succeeds. -/
@[reducible]
def converts (env : Env) (elemTy : Ty) (raw : String) : Prop :=
  (setField env elemTy.kind ⟨elemTy, elemTy.zero⟩ raw).err = some none

/-- The loop of `formToStruct` over the fields of `a` followed by the fields
`b`: the outcome over `a`, continued by the outcome `y` over `b` when the
fields of `a` raised no error. -/
def thenFields (x : Res Record) (b : Record) (y : Res Record) : Res Record :=
  match x with
  | Res.panic => Res.panic
  | Res.ret a1 (some err) => Res.ret (a1.append b) (some err)
  | Res.ret a1 none => y.map (fun b1 => a1.append b1)

/-! ## Decimal numerals (specification side) -/

/-- A decimal digit, `'0'` to `'9'`. -/
def isDecimalDigit (c : Char) : Bool := decide (48 ≤ c.toNat ∧ c.toNat ≤ 57)

/-- The number denoted by a string of decimal digits that continues the
digits read so far, whose value is `n`. -/
def decimalFrom : List Char → Nat → Nat
  | [], n => n
  | c :: cs, n => decimalFrom cs (10 * n + (c.toNat - 48))

/-- The number denoted by a string of decimal digits. -/
def decimalValue (ds : List Char) : Nat := decimalFrom ds 0

/-- The integer denoted by an optional sign and a string of decimal digits. -/
def signedValue (sign ds : List Char) : Int :=
  if sign = ['-'] then -(decimalValue ds : Int) else (decimalValue ds : Int)

/-- The width in bits of an integer kind: the spec's `w`, with `int` and `uint`
at the platform width. -/
def bitsOf (is64 : Bool) : Kind → Nat
  | .Int => IntSize is64
  | .Uint => IntSize is64
  | .Int8 => 8
  | .Uint8 => 8
  | .Int16 => 16
  | .Uint16 => 16
  | .Int32 => 32
  | .Uint32 => 32
  | .Int64 => 64
  | .Uint64 => 64
  | _ => 0

/-- The signed integer kinds. -/
def signedKinds : List Kind := [Kind.Int, Kind.Int8, Kind.Int16, Kind.Int32, Kind.Int64]

/-- The unsigned integer kinds that `setField` supports. -/
def unsignedKinds : List Kind := [Kind.Uint, Kind.Uint8, Kind.Uint16, Kind.Uint32, Kind.Uint64]

/-! ## The fixtures of bind_test.go -/

/-- An environment for the examples: a 64-bit platform, decoders that leave the
target alone, and parsers that find no body; its float parser rejects every
string (no example parses a float). The decoders of an `Env` always return:
the panic of the real JSON decoder on a nil body is not described. -/
def exampleEnv : Env where
  is64 := true
  parseFloat := fun _ _ => Except.error NumErr.ErrSyntax
  jsonDecode := fun _ target => (target, none)
  xmlDecode := fun _ target => (target, none)
  parseForm := fun _ => Except.error "missing form body"
  parseMultipartForm := fun _ _ => Except.error "missing form body"

/-- The function `newRequest` of the tests: a request whose `Content-Type`
header is set to `contentType`. -/
def newRequest (contentType : String) (body : Option String) : Request :=
  ⟨fun key => if key = "Content-Type" then some [contentType] else none, body⟩

/-- A request without any header. -/
def bareRequest : Request := ⟨fun _ => none, none⟩

/-- An exported field with the given name and form tag. -/
def exported (name tag : String) : StructField := ⟨name, tag, true⟩

/-- The zero value of the test type `Unknown` (`struct{}`). -/
def UnknownZero : Record := Record.nil

/-- The zero value of the test type `Embedded`. -/
def EmbeddedZero : Record :=
  Record.leaf (exported "Foobar" "foobar") ⟨Ty.basic Kind.String, Value.string ""⟩ Record.nil

/-- The fields `String` to `Float64` of the zero value of the test type
`FormBody`. -/
def FormBodyScalars : Record :=
  Record.leaf (exported "String" "string") ⟨Ty.basic Kind.String, Value.string ""⟩ <|
  Record.leaf (exported "Bool" "bool") ⟨Ty.basic Kind.Bool, Value.bool false⟩ <|
  Record.leaf (exported "Int" "int") ⟨Ty.basic Kind.Int, Value.int 0⟩ <|
  Record.leaf (exported "Int8" "int8") ⟨Ty.basic Kind.Int8, Value.int 0⟩ <|
  Record.leaf (exported "Int16" "int16") ⟨Ty.basic Kind.Int16, Value.int 0⟩ <|
  Record.leaf (exported "Int32" "int32") ⟨Ty.basic Kind.Int32, Value.int 0⟩ <|
  Record.leaf (exported "Int64" "int64") ⟨Ty.basic Kind.Int64, Value.int 0⟩ <|
  Record.leaf (exported "Uint" "uint") ⟨Ty.basic Kind.Uint, Value.uint 0⟩ <|
  Record.leaf (exported "Uint8" "uint8") ⟨Ty.basic Kind.Uint8, Value.uint 0⟩ <|
  Record.leaf (exported "Uint16" "uint16") ⟨Ty.basic Kind.Uint16, Value.uint 0⟩ <|
  Record.leaf (exported "Uint32" "uint32") ⟨Ty.basic Kind.Uint32, Value.uint 0⟩ <|
  Record.leaf (exported "Uint64" "uint64") ⟨Ty.basic Kind.Uint64, Value.uint 0⟩ <|
  Record.leaf (exported "Float32" "float32") ⟨Ty.basic Kind.Float32, Value.float GoFloat.zero⟩ <|
  Record.leaf (exported "Float64" "float64") ⟨Ty.basic Kind.Float64, Value.float GoFloat.zero⟩ <|
  Record.nil

/-- The fields of the test type `FormBody` after `IntSlice`: the embedded
`Embedded` with the given `Foobar`, `NoTag`, and `Unknown`, a field of struct
type tagged "unknown". -/
def FormBodyTail (foobar : String) : Record :=
  Record.nested (exported "Embedded" "")
    (Record.leaf (exported "Foobar" "foobar") ⟨Ty.basic Kind.String, Value.string foobar⟩
      Record.nil) <|
  Record.leaf (exported "NoTag" "") ⟨Ty.basic Kind.String, Value.string ""⟩ <|
  Record.nested (exported "Unknown" "unknown") UnknownZero Record.nil

/-- The value of the test type `FormBody` that is zero except for `IntSlice`. -/
def FormBodyWith (intSlice : List Value) : Record :=
  FormBodyScalars.append
    (Record.leaf (exported "IntSlice" "int_slice")
      ⟨Ty.slice (Ty.basic Kind.Int), Value.slice intSlice⟩ (FormBodyTail ""))

/-- The zero value `FormBody{}` of the test type `FormBody`. -/
def FormBodyZero : Record := FormBodyWith []

/-- The form data with the single key `key`, as `url.Values`. -/
def singleKey (key : String) (values : List String) : Values :=
  fun k => if k = key then some values else none

/-- The nil map of file headers that `bindForm` passes. -/
def noFiles : Files := fun _ => none

/-! ## Further fixtures and specification-side notions -/

/-- The kinds that the switch of `setField` converts. -/
def supportedKinds : List Kind :=
  [Kind.String, Kind.Bool, Kind.Int, Kind.Int8, Kind.Int16, Kind.Int32, Kind.Int64,
   Kind.Uint, Kind.Uint8, Kind.Uint16, Kind.Uint32, Kind.Uint64, Kind.Float32, Kind.Float64]

/-- The spellings that `strconv.ParseBool` reads as true. -/
def trueSpellings : List String := ["1", "t", "T", "TRUE", "true", "True"]

/-- The spellings that `strconv.ParseBool` reads as false. -/
def falseSpellings : List String := ["0", "f", "F", "FALSE", "false", "False"]

/-- The zero value `FilesBody{}` of the test type `FilesBody`. -/
def FilesBodyZero : Record :=
  Record.leaf (exported "File" "file") ⟨Ty.fileHeaderPtr, Value.file none⟩ <|
  Record.leaf (exported "FileSlice" "file_slice")
    ⟨Ty.slice Ty.fileHeaderPtr, Value.slice []⟩ Record.nil

/-- The file part of the test with a single file. -/
def fileTxt : FileHeader := ⟨"file.txt", "file text content"⟩

/-- The first file part of the test with several files. -/
def file1Txt : FileHeader := ⟨"file1.txt", "file text content 1"⟩

/-- The second file part of the test with several files. -/
def file2Txt : FileHeader := ⟨"file2.txt", "file text content 2"⟩

/-- The file data with the single key `key`. -/
def singleFileKey (key : String) (files : List FileHeader) : Files :=
  fun k => if k = key then some files else none

/-- The text data without any key. -/
def noValues : Values := fun _ => none

/-- The leaf fields, at every depth, whose tag is a key of neither the text data
nor the file data. -/
def Record.absent (form : Values) (formFiles : Files) : Record → List (StructField × Cell)
  | Record.nil => []
  | Record.leaf fieldType fieldValue rest =>
    if (form fieldType.formTag).isNone ∧ (formFiles fieldType.formTag).isNone then
      (fieldType, fieldValue) :: rest.absent form formFiles
    else rest.absent form formFiles
  | Record.nested _ inner rest => inner.absent form formFiles ++ rest.absent form formFiles

/-- The numeric and boolean kinds that the switch of `setField` converts. -/
def numericKinds : List Kind :=
  [Kind.Bool, Kind.Int, Kind.Int8, Kind.Int16, Kind.Int32, Kind.Int64,
   Kind.Uint, Kind.Uint8, Kind.Uint16, Kind.Uint32, Kind.Uint64, Kind.Float32, Kind.Float64]

/-- The types a leaf field can have: `basic k` describes no slice type, no
struct type (a struct field is `nested`) and no type of the invalid kind. -/
def Ty.isFieldType : Ty → Bool
  | Ty.basic Kind.Slice => false
  | Ty.basic Kind.Struct => false
  | Ty.basic Kind.Invalid => false
  | _ => true

/-- The record describes a Go struct value: the type of every leaf field, at
every depth, is a field type. -/
def Record.wellTyped : Record → Bool
  | Record.nil => true
  | Record.leaf _ fieldValue rest => fieldValue.ty.isFieldType && rest.wellTyped
  | Record.nested _ inner rest => inner.wellTyped && rest.wellTyped

/-- The guarantee of the form parsers: every key that is present has at least
one value. -/
def nonEmptyLists {α : Type} (data : String → Option (List α)) : Prop :=
  ∀ key l, data key = some l → l ≠ []

/-! ## net/url and net/http: parsing a url-encoded body -/

/-- The function `strings.Cut(s, sep)` for a one-byte separator: the text
before the first separator and the text after it (empty when there is none). -/
def cutAt (sep : Char) : List Char → List Char × List Char
  | [] => ([], [])
  | c :: cs => if c = sep then ([], cs) else (c :: (cutAt sep cs).1, (cutAt sep cs).2)

/-- The pieces that the loop of `url.ParseQuery` cuts off at each `&`, in
order. -/
def splitAmp : List Char → List (List Char)
  | [] => []
  | c :: cs =>
    if c = '&' then [] :: splitAmp cs
    else
      match splitAmp cs with
      | [] => [[c]]
      | seg :: segs => (c :: seg) :: segs

/-- The value of a hexadecimal digit (`unhex` of `net/url`). -/
def unhex (c : Char) : Option Nat :=
  if 48 ≤ c.toNat ∧ c.toNat ≤ 57 then some (c.toNat - 48)
  else if 97 ≤ c.toNat ∧ c.toNat ≤ 102 then some (c.toNat - 97 + 10)
  else if 65 ≤ c.toNat ∧ c.toNat ≤ 70 then some (c.toNat - 65 + 10)
  else none

/-- The function `url.QueryUnescape`: `+` is a space and `%XY` is the byte with
the hexadecimal code `XY`; `none` is its escape error. The byte is taken as the
character with that code, which is exact for codes below 128 only: an escaped
UTF-8 sequence of several bytes comes out as several characters here and as
one character in Go. -/
def queryUnescape : List Char → Option (List Char)
  | [] => some []
  | c :: cs =>
    if c = '%' then
      match cs with
      | x :: y :: rest =>
        match unhex x, unhex y, queryUnescape rest with
        | some a, some b, some out => some (Char.ofNat (16 * a + b) :: out)
        | _, _, _ => none
      | _ => none
    else
      match queryUnescape cs with
      | some out => some ((if c = '+' then ' ' else c) :: out)
      | none => none

/-- The statement `m[key] = append(m[key], value)` on a map kept as a list of
keys with their values. -/
def addValue (key value : String) : List (String × List String) → List (String × List String)
  | [] => [(key, [value])]
  | (k, vs) :: rest =>
    if k = key then (k, vs ++ [value]) :: rest else (k, vs) :: addValue key value rest

/-- The loop of `url.ParseQuery` over the pieces of the query: a piece with a
semicolon sets the error, an empty piece is skipped, every other piece is cut
at its first `=` and unescaped, and the first escape error is kept. -/
def parseQueryLoop : List (List Char) → List (String × List String) → Option String →
    List (String × List String) × Option String
  | [], m, err => (m, err)
  | seg :: segs, m, err =>
    if seg.contains ';' then
      parseQueryLoop segs m (some "invalid semicolon separator in query")
    else if seg = [] then parseQueryLoop segs m err
    else
      match queryUnescape (cutAt '=' seg).1, queryUnescape (cutAt '=' seg).2 with
      | some key, some value => parseQueryLoop segs (addValue ⟨key⟩ ⟨value⟩ m) err
      | _, _ => parseQueryLoop segs m (if err = none then some "invalid URL escape" else err)

/-- The function `url.ParseQuery`. -/
def ParseQuery (query : String) : List (String × List String) × Option String :=
  parseQueryLoop (splitAmp query.data) [] none

/-- A map kept as a list of keys with their values, as `url.Values`. -/
def asValues (m : List (String × List String)) : Values :=
  fun key => (m.find? (fun kv => kv.1 = key)).map (fun kv => kv.2)

/-- The method `Request.ParseForm` with the resulting `r.Form`, as it behaves on
a `POST` request to "/" whose Content-Type is
`application/x-www-form-urlencoded` (the requests of the form tests): a nil
body is an error, every other body is parsed as a query. -/
def parseUrlencodedForm (r : Request) : Except String Values :=
  match r.Body with
  | none => Except.error "missing form body"
  | some body =>
    match ParseQuery body with
    | (m, none) => Except.ok (asValues m)
    | (_, some err) => Except.error err

/-- The environment of the form tests: `exampleEnv` with `ParseForm` parsing
the url-encoded body. -/
def formEnv : Env where
  is64 := true
  parseFloat := fun _ _ => Except.error NumErr.ErrSyntax
  jsonDecode := fun _ target => (target, none)
  xmlDecode := fun _ target => (target, none)
  parseForm := parseUrlencodedForm
  parseMultipartForm := fun _ _ => Except.error "missing form body"

/-- The body of the test "Test form binding all fields empty", as written. -/
def allFieldsEmptyBody : String :=
  "string=&bool=&int=&in8=&int16=&int32=&int64=uint=&uin8=&uint16=&uint32=&uint64=&float32=&float64=&int_slice="

/-- A body in which every tag of `FormBody` from `string` to `int_slice` is
present and blank. -/
def allBlankBody : String :=
  "string=&bool=&int=&int8=&int16=&int32=&int64=&uint=&uint8=&uint16=&uint32=&uint64=&float32=&float64=&int_slice="

/-! ## Errors of the field mapper -/

theorem setDone_ret {o : Option Cell} {c : Cell} {e : Option Error}
    (h : setDone o = Res.ret c e) : o = some c ∧ e = none := by
  cases o <;> simp_all [setDone]

theorem ParseBool_err {s : String} {e : Error} (h : (ParseBool s).2 = some e) :
    e = Error.numError "ParseBool" s NumErr.ErrSyntax := by
  unfold ParseBool at h
  split_ifs at h
  all_goals simp_all

theorem ParseUint_err {is64 : Bool} {s : String} {b : Nat} {e : Error}
    (h : (ParseUint is64 s b).2 = some e) : ∃ k, e = Error.numError "ParseUint" s k := by
  unfold ParseUint at h
  split at h
  · simp at h
  · exact ⟨_, by simpa using h.symm⟩

theorem parseIntRange_err {is64 : Bool} {s : String} {b : Nat} {neg : Bool} {un : Nat}
    {e : Error} (h : (parseIntRange is64 s b neg un).2 = some e) :
    e = Error.numError "ParseInt" s NumErr.ErrRange := by
  unfold parseIntRange at h
  simp only at h
  split_ifs at h <;> simp_all

theorem ParseInt_err {is64 : Bool} {s : String} {b : Nat} {e : Error}
    (h : (ParseInt is64 s b).2 = some e) : ∃ k, e = Error.numError "ParseInt" s k := by
  unfold ParseInt at h
  split_ifs at h
  · exact ⟨_, by simpa using h.symm⟩
  · unfold parseIntFinish at h
    split at h
    · exact ⟨_, by simpa using h.symm⟩
    · exact ⟨_, by simpa using h.symm⟩
    · exact ⟨_, parseIntRange_err h⟩

theorem setBool_err {c c1 : Cell} {s : String} {e : Error}
    (h : setBool c s = Res.ret c1 (some e)) :
    c1 = c ∧ ∃ f kd, e = Error.numError f s kd := by
  unfold setBool at h
  split_ifs at h
  · exact absurd (setDone_ret h).2 (by simp)
  · split at h
    · exact absurd (setDone_ret h).2 (by simp)
    · rename_i x err hp
      simp only [Res.ret.injEq, Option.some.injEq] at h
      refine ⟨h.1.symm, "ParseBool", NumErr.ErrSyntax, ?_⟩
      have := @ParseBool_err s err (by rw [hp])
      rw [← h.2]; exact this

theorem setInt_err {env : Env} {c c1 : Cell} {s : String} {b : Nat} {e : Error}
    (h : setInt env c s b = Res.ret c1 (some e)) :
    c1 = c ∧ ∃ f kd, e = Error.numError f s kd := by
  unfold setInt at h
  split_ifs at h
  · exact absurd (setDone_ret h).2 (by simp)
  · split at h
    · exact absurd (setDone_ret h).2 (by simp)
    · rename_i x err hp
      simp only [Res.ret.injEq, Option.some.injEq] at h
      obtain ⟨k, hk⟩ := @ParseInt_err env.is64 s b err (by rw [hp])
      exact ⟨h.1.symm, _, k, by rw [← h.2]; exact hk⟩

theorem setUint_err {env : Env} {c c1 : Cell} {s : String} {b : Nat} {e : Error}
    (h : setUint env c s b = Res.ret c1 (some e)) :
    c1 = c ∧ ∃ f kd, e = Error.numError f s kd := by
  unfold setUint at h
  split_ifs at h
  · exact absurd (setDone_ret h).2 (by simp)
  · split at h
    · exact absurd (setDone_ret h).2 (by simp)
    · rename_i x err hp
      simp only [Res.ret.injEq, Option.some.injEq] at h
      obtain ⟨k, hk⟩ := @ParseUint_err env.is64 s b err (by rw [hp])
      exact ⟨h.1.symm, _, k, by rw [← h.2]; exact hk⟩

theorem setFloat_err {env : Env} {c c1 : Cell} {s : String} {b : Nat} {e : Error}
    (h : setFloat env c s b = Res.ret c1 (some e)) :
    c1 = c ∧ ∃ f kd, e = Error.numError f s kd := by
  unfold setFloat at h
  split_ifs at h
  · exact absurd (setDone_ret h).2 (by simp)
  · split at h
    · exact absurd (setDone_ret h).2 (by simp)
    · simp only [Res.ret.injEq, Option.some.injEq] at h
      exact ⟨h.1.symm, _, _, h.2.symm⟩

/-- A failing `setField` leaves the cell as it was, and its error is
`errUnknownFieldType` or a `NumError` that names the raw string. -/
theorem setField_err {env : Env} {k : Kind} {c c1 : Cell} {s : String} {e : Error}
    (h : setField env k c s = Res.ret c1 (some e)) :
    c1 = c ∧ (e = errUnknownFieldType ∨ ∃ f kd, e = Error.numError f s kd) := by
  unfold setField at h
  split at h
  · exact absurd (setDone_ret h).2 (by simp)
  all_goals first
    | exact ⟨(setBool_err h).1, Or.inr (setBool_err h).2⟩
    | exact ⟨(setInt_err h).1, Or.inr (setInt_err h).2⟩
    | exact ⟨(setUint_err h).1, Or.inr (setUint_err h).2⟩
    | exact ⟨(setFloat_err h).1, Or.inr (setFloat_err h).2⟩
    | (simp only [Res.ret.injEq, Option.some.injEq] at h; exact ⟨h.1.symm, Or.inl h.2.symm⟩)

/-- The kinds that `setField` converts with a parser of `strconv`. -/
theorem setField_parsed_err {env : Env} {k : Kind} {c c1 : Cell} {s : String} {e : Error}
    (hk : k ∈ [Kind.Bool, Kind.Int, Kind.Int8, Kind.Int16, Kind.Int32, Kind.Int64,
      Kind.Uint, Kind.Uint8, Kind.Uint16, Kind.Uint32, Kind.Uint64, Kind.Float32, Kind.Float64])
    (h : setField env k c s = Res.ret c1 (some e)) : ∃ f kd, e = Error.numError f s kd := by
  simp only [List.mem_cons, List.mem_singleton, List.not_mem_nil, or_false] at hk
  rcases hk with hk | hk | hk | hk | hk | hk | hk | hk | hk | hk | hk | hk | hk <;> subst hk
  all_goals first
    | exact (setBool_err h).2
    | exact (setInt_err h).2
    | exact (setUint_err h).2
    | exact (setFloat_err h).2

theorem setField_isFieldError {env : Env} {k : Kind} {c c1 : Cell} {s : String} {e : Error}
    (h : setField env k c s = Res.ret c1 (some e)) : e.isFieldError = true := by
  rcases (setField_err h).2 with h1 | ⟨f, kd, h1⟩ <;> subst h1 <;> rfl

theorem setSliceLoop_isFieldError {env : Env} {k : Kind} {t : Ty} {vs : List String}
    {l : List Value} {e : Error}
    (h : setSliceLoop env k t vs = Res.ret l (some e)) : e.isFieldError = true := by
  induction vs generalizing l with
  | nil => simp [setSliceLoop] at h
  | cons v vs ih =>
    unfold setSliceLoop at h
    split at h
    · simp at h
    · rename_i x err hs
      simp only [Res.ret.injEq, Option.some.injEq] at h
      rw [← h.2]; exact setField_isFieldError hs
    · split at h
      · simp at h
      · rename_i x err hs
        simp only [Res.ret.injEq, Option.some.injEq] at h
        obtain ⟨-, h2⟩ := h
        subst h2
        exact ih hs
      · simp at h

theorem setSlice_err {env : Env} {c c1 : Cell} {vs : List String} {e : Error}
    (h : setSlice env c vs = Res.ret c1 (some e)) : c1 = c ∧ e.isFieldError = true := by
  unfold setSlice at h
  split at h
  · simp at h
  · split at h
    · simp at h
    · rename_i x err hs
      simp only [Res.ret.injEq, Option.some.injEq] at h
      exact ⟨h.1.symm, by rw [← h.2]; exact setSliceLoop_isFieldError hs⟩
    · simp at h

theorem bindText_err {env : Env} {form : Values} {key : String} {c c1 : Cell} {e : Error}
    (h : bindText env form key c = Res.ret c1 (some e)) : c1 = c ∧ e.isFieldError = true := by
  unfold bindText at h
  split at h
  · simp at h
  · split_ifs at h
    · exact setSlice_err h
    · split at h
      · simp at h
      · exact ⟨(setField_err h).1, setField_isFieldError h⟩

theorem bindFile_err {formFiles : Files} {key : String} {c c1 : Cell} {e : Option Error}
    (h : bindFile formFiles key c = Res.ret c1 e) : e = none := by
  unfold bindFile at h
  split at h
  · simp at h; exact h.2.symm
  · split_ifs at h
    · simp at h; exact h.2.symm
    · split at h
      · simp at h
      · simp at h; exact h.2.symm
    · simp at h; exact h.2.symm

theorem bindField_err {env : Env} {form : Values} {formFiles : Files} {key : String}
    {c c1 : Cell} {e : Error}
    (h : bindField env form formFiles key c = Res.ret c1 (some e)) :
    c1 = c ∧ e.isFieldError = true := by
  unfold bindField at h
  split at h
  · simp at h
  · rename_i fv err hs
    simp only [Res.ret.injEq, Option.some.injEq] at h
    obtain ⟨h1, h2⟩ := bindText_err hs
    exact ⟨by rw [← h.1, h1], by rw [← h.2]; exact h2⟩
  · exact absurd (bindFile_err h) (by simp)

theorem Res.map_ret {α β : Type} {f : α → β} {x : Res α} {s : β} {e : Option Error}
    (h : x.map f = Res.ret s e) : ∃ s0, x = Res.ret s0 e ∧ s = f s0 := by
  cases x with
  | panic => simp [Res.map] at h
  | ret s0 e0 => simp only [Res.map, Res.ret.injEq] at h; exact ⟨s0, by rw [h.2], h.1.symm⟩

theorem formToStruct_isFieldError (env : Env) (form : Values) (formFiles : Files)
    (r : Record) : ∀ {r1 : Record} {e : Error},
    formToStruct env form formFiles r = Res.ret r1 (some e) → e.isFieldError = true := by
  induction r with
  | nil => intro r1 e h; simp [formToStruct] at h
  | leaf ft fv rest ih =>
    intro r1 e h
    unfold formToStruct at h
    split_ifs at h
    · obtain ⟨s0, h1, -⟩ := Res.map_ret h; exact ih h1
    · obtain ⟨s0, h1, -⟩ := Res.map_ret h; exact ih h1
    · split at h
      · simp at h
      · rename_i x err hb
        simp only [Res.ret.injEq, Option.some.injEq] at h
        rw [← h.2]; exact (bindField_err hb).2
      · obtain ⟨s0, h1, -⟩ := Res.map_ret h; exact ih h1
  | nested ft inner rest ih1 ih2 =>
    intro r1 e h
    unfold formToStruct at h
    split_ifs at h
    · obtain ⟨s0, h1, -⟩ := Res.map_ret h; exact ih2 h1
    · split at h
      · simp at h
      · rename_i x err hb
        simp only [Res.ret.injEq, Option.some.injEq] at h
        obtain ⟨-, h2⟩ := h
        subst h2
        exact ih1 hb
      · obtain ⟨s0, h1, -⟩ := Res.map_ret h; exact ih2 h1

/-! ## The format dispatcher -/

theorem containsChars_iff (substr s : List Char) :
    containsChars substr s = true ↔ List.IsInfix substr s := by
  induction s with
  | nil => simp [containsChars, List.isEmpty_iff]
  | cons c cs ih =>
    simp only [containsChars, Bool.or_eq_true, ih, List.infix_cons_iff, List.isPrefixOf_iff_prefix]

theorem stringsContains_iff (s substr : String) :
    stringsContains s substr = true ↔ List.IsInfix substr.data s.data :=
  containsChars_iff substr.data s.data

theorem stringsContains_false_iff (s substr : String) :
    stringsContains s substr = false ↔ ¬ List.IsInfix substr.data s.data := by
  rw [← Bool.not_eq_true, stringsContains_iff]

/-- C1: for a non-empty Content-Type value, `BindBody` is the JSON binder when
the value contains "json" (whatever else it contains, "multipart/form-data"
included); otherwise the XML binder when it contains "xml"; otherwise the form
binder when it contains "form-urlencoded"; otherwise the multipart binder when
it contains "multipart/form-data"; the outcome of the chosen binder is returned
as it is. -/
theorem BindBody_dispatch_priority (env : Env) (r : Request) (target : Record)
    (h : headerGet r.Header "Content-Type" ≠ "") :
    (List.IsInfix "json".data (headerGet r.Header "Content-Type").data →
      BindBody env r target = bindJSON env r target) ∧
    (List.IsInfix "json".data (headerGet r.Header "Content-Type").data →
      List.IsInfix "multipart/form-data".data (headerGet r.Header "Content-Type").data →
      BindBody env r target = bindJSON env r target) ∧
    (¬ List.IsInfix "json".data (headerGet r.Header "Content-Type").data →
      List.IsInfix "xml".data (headerGet r.Header "Content-Type").data →
      BindBody env r target = bindXML env r target) ∧
    (¬ List.IsInfix "json".data (headerGet r.Header "Content-Type").data →
      ¬ List.IsInfix "xml".data (headerGet r.Header "Content-Type").data →
      List.IsInfix "form-urlencoded".data (headerGet r.Header "Content-Type").data →
      BindBody env r target = bindForm env r target) ∧
    (¬ List.IsInfix "json".data (headerGet r.Header "Content-Type").data →
      ¬ List.IsInfix "xml".data (headerGet r.Header "Content-Type").data →
      ¬ List.IsInfix "form-urlencoded".data (headerGet r.Header "Content-Type").data →
      List.IsInfix "multipart/form-data".data (headerGet r.Header "Content-Type").data →
      BindBody env r target = bindMultipartForm env r target) := by
  have key : List.IsInfix "json".data (headerGet r.Header "Content-Type").data →
      BindBody env r target = bindJSON env r target := by
    intro hj
    have := (stringsContains_iff _ jsonType).2 hj
    simp [BindBody, h, this]
  refine ⟨key, fun hj _ => key hj, ?_, ?_, ?_⟩
  · intro hj hx
    have h1 := (stringsContains_false_iff _ jsonType).2 hj
    have := (stringsContains_iff _ xmlType).2 hx
    simp [BindBody, h, this, h1]
  · intro hj hx hf
    have h1 := (stringsContains_false_iff _ jsonType).2 hj
    have h2 := (stringsContains_false_iff _ xmlType).2 hx
    have := (stringsContains_iff _ formType).2 hf
    simp [BindBody, h, this, h1, h2]
  · intro hj hx hf hm
    have h1 := (stringsContains_false_iff _ jsonType).2 hj
    have h2 := (stringsContains_false_iff _ xmlType).2 hx
    have h3 := (stringsContains_false_iff _ formType).2 hf
    have := (stringsContains_iff _ multipartType).2 hm
    simp [BindBody, h, this, h1, h2, h3]

/-- Witness of C1: the header `application/json; multipart/form-data` is not
empty and contains both markers; the request is bound by the JSON binder. -/
theorem BindBody_dispatch_priority_witness :
    headerGet (newRequest "application/json; multipart/form-data" none).Header "Content-Type" ≠ ""
    ∧ List.IsInfix "json".data "application/json; multipart/form-data".data
    ∧ List.IsInfix "multipart/form-data".data "application/json; multipart/form-data".data
    ∧ BindBody exampleEnv (newRequest "application/json; multipart/form-data" none) FormBodyZero
        = bindJSON exampleEnv (newRequest "application/json; multipart/form-data" none)
            FormBodyZero :=
  ⟨by decide, by decide, by decide,
    (BindBody_dispatch_priority exampleEnv
      (newRequest "application/json; multipart/form-data" none) FormBodyZero (by decide)).1
      (by decide)⟩

/-- C2: when the Content-Type header is absent, or its first value is the
empty string, `BindBody` returns `errMissingContentType` and the target is as
it was, whatever the binding strategies of the environment would do. -/
theorem BindBody_missing_content_type (env : Env) (r : Request) (target : Record)
    (h : ∀ v rest, r.Header "Content-Type" = some (v :: rest) → v = "") :
    BindBody env r target = Res.ret target (some errMissingContentType) := by
  have h0 : headerGet r.Header "Content-Type" = "" := by
    unfold headerGet
    split
    · rename_i v rest hv; exact h v rest hv
    · rfl
  simp [BindBody, h0]

/-- Witness of C2: the test request, whose Content-Type is set to "", and a
request without any header. -/
theorem BindBody_missing_content_type_witness :
    (∀ v rest, (newRequest "" (some "")).Header "Content-Type" = some (v :: rest) → v = "")
    ∧ BindBody exampleEnv (newRequest "" (some "")) FormBodyZero
        = Res.ret FormBodyZero (some errMissingContentType)
    ∧ bareRequest.Header "Content-Type" = none
    ∧ BindBody exampleEnv bareRequest FormBodyZero
        = Res.ret FormBodyZero (some errMissingContentType) :=
  ⟨fun v rest hv => by simp [newRequest] at hv; exact hv.1.symm,
   BindBody_missing_content_type exampleEnv (newRequest "" (some "")) FormBodyZero
    (fun v rest hv => by simp [newRequest] at hv; exact hv.1.symm),
   rfl,
   BindBody_missing_content_type exampleEnv bareRequest FormBodyZero
    (fun v rest hv => by simp [bareRequest] at hv)⟩

theorem decoded_ne_unsupported {x : Record × Option String} {t : Record}
    (h : decoded x = Res.ret t (some errUnsupportedContentType)) : False := by
  obtain ⟨a, b⟩ := x
  cases b <;> simp [decoded, errUnsupportedContentType] at h

/-- C3: a non-empty Content-Type value that contains none of "json", "xml",
"form-urlencoded", "multipart/form-data" makes `BindBody` return
`errUnsupportedContentType` with the target as it was; and whenever `BindBody`
returns `errUnsupportedContentType`, the value is non-empty and contains none
of the four. -/
theorem BindBody_unsupported_content_type (env : Env) (r : Request) (target : Record) :
    (headerGet r.Header "Content-Type" ≠ "" →
      ¬ List.IsInfix "json".data (headerGet r.Header "Content-Type").data →
      ¬ List.IsInfix "xml".data (headerGet r.Header "Content-Type").data →
      ¬ List.IsInfix "form-urlencoded".data (headerGet r.Header "Content-Type").data →
      ¬ List.IsInfix "multipart/form-data".data (headerGet r.Header "Content-Type").data →
      BindBody env r target = Res.ret target (some errUnsupportedContentType)) ∧
    (∀ t, BindBody env r target = Res.ret t (some errUnsupportedContentType) →
      t = target ∧ headerGet r.Header "Content-Type" ≠ "" ∧
      ¬ List.IsInfix "json".data (headerGet r.Header "Content-Type").data ∧
      ¬ List.IsInfix "xml".data (headerGet r.Header "Content-Type").data ∧
      ¬ List.IsInfix "form-urlencoded".data (headerGet r.Header "Content-Type").data ∧
      ¬ List.IsInfix "multipart/form-data".data (headerGet r.Header "Content-Type").data) := by
  constructor
  · intro h hj hx hf hm
    have h1 := (stringsContains_false_iff _ jsonType).2 hj
    have h2 := (stringsContains_false_iff _ xmlType).2 hx
    have h3 := (stringsContains_false_iff _ formType).2 hf
    have h4 := (stringsContains_false_iff _ multipartType).2 hm
    simp [BindBody, h, h1, h2, h3, h4]
  · intro t ht
    unfold BindBody at ht
    simp only at ht
    split_ifs at ht with h0 h1 h2 h3 h4
    · simp [errMissingContentType, errUnsupportedContentType] at ht
    · exact (decoded_ne_unsupported ht).elim
    · exact (decoded_ne_unsupported ht).elim
    · exfalso
      unfold bindForm at ht
      split at ht
      · simp [errUnsupportedContentType] at ht
      · have := formToStruct_isFieldError _ _ _ _ ht
        simp [errUnsupportedContentType, Error.isFieldError] at this
    · exfalso
      unfold bindMultipartForm at ht
      split at ht
      · simp [errUnsupportedContentType] at ht
      · have := formToStruct_isFieldError _ _ _ _ ht
        simp [errUnsupportedContentType, Error.isFieldError] at this
    · simp only [Res.ret.injEq, and_true] at ht
      refine ⟨ht.symm, h0, ?_, ?_, ?_, ?_⟩
      · exact (stringsContains_false_iff _ jsonType).1 (by simpa using h1)
      · exact (stringsContains_false_iff _ xmlType).1 (by simpa using h2)
      · exact (stringsContains_false_iff _ formType).1 (by simpa using h3)
      · exact (stringsContains_false_iff _ multipartType).1 (by simpa using h4)

/-- Witness of C3: the test value "unsupported", and "application/JSON", which
differs from a JSON type by case only, are both unsupported. -/
theorem BindBody_unsupported_content_type_witness :
    BindBody exampleEnv (newRequest "unsupported" (some "")) FormBodyZero
      = Res.ret FormBodyZero (some errUnsupportedContentType)
    ∧ BindBody exampleEnv (newRequest "application/JSON" (some "")) FormBodyZero
      = Res.ret FormBodyZero (some errUnsupportedContentType) :=
  ⟨(BindBody_unsupported_content_type exampleEnv (newRequest "unsupported" (some ""))
      FormBodyZero).1 (by decide) (by decide) (by decide) (by decide) (by decide),
   (BindBody_unsupported_content_type exampleEnv (newRequest "application/JSON" (some ""))
      FormBodyZero).1 (by decide) (by decide) (by decide) (by decide) (by decide)⟩

/-! ## The scalar converter -/

theorem truncInt_zero (is64 : Bool) :
    truncInt 8 0 = 0 ∧ truncInt 16 0 = 0 ∧ truncInt 32 0 = 0 ∧ truncInt 64 0 = 0
    ∧ truncInt (IntSize is64) 0 = 0 := by
  cases is64 <;> simp [truncInt, IntSize]

/-- C4: for every supported scalar kind, `setField` on the empty string returns
no error and stores the zero value of the kind ("" for a string, false for a
bool, 0 for the signed and unsigned integers, 0.0 for the floats), whatever the
field held before. -/
theorem setField_empty_string_zero (env : Env) (k : Kind) (field : Cell)
    (hk : field.Kind = k) :
    (k = Kind.String →
      setField env k field "" = Res.ret ⟨field.ty, Value.string ""⟩ none) ∧
    (k = Kind.Bool →
      setField env k field "" = Res.ret ⟨field.ty, Value.bool false⟩ none) ∧
    (k ∈ [Kind.Int, Kind.Int8, Kind.Int16, Kind.Int32, Kind.Int64] →
      setField env k field "" = Res.ret ⟨field.ty, Value.int 0⟩ none) ∧
    (k ∈ [Kind.Uint, Kind.Uint8, Kind.Uint16, Kind.Uint32, Kind.Uint64] →
      setField env k field "" = Res.ret ⟨field.ty, Value.uint 0⟩ none) ∧
    (k ∈ [Kind.Float32, Kind.Float64] →
      setField env k field "" = Res.ret ⟨field.ty, Value.float GoFloat.zero⟩ none) := by
  obtain ⟨t1, t2, t3, t4, t5⟩ := truncInt_zero env.is64
  refine ⟨?_, ?_, ?_, ?_, ?_⟩
  · intro h; subst h
    simp [setField, setDone, Cell.SetString, hk]
  · intro h; subst h
    simp [setField, setBool, setDone, Cell.SetBool, hk]
  · intro h
    simp only [List.mem_cons, List.mem_singleton, List.not_mem_nil, or_false] at h
    rcases h with h | h | h | h | h <;> subst h <;>
      simp [setField, setInt, setDone, Cell.SetInt, hk, t1, t2, t3, t4, t5]
  · intro h
    simp only [List.mem_cons, List.mem_singleton, List.not_mem_nil, or_false] at h
    rcases h with h | h | h | h | h <;> subst h <;>
      simp [setField, setUint, setDone, Cell.SetUint, hk]
  · intro h
    simp only [List.mem_cons, List.mem_singleton, List.not_mem_nil, or_false] at h
    rcases h with h | h <;> subst h <;>
      simp [setField, setFloat, setDone, Cell.SetFloat, hk]

/-- Witness of C4: an `int8` field holding 77 and a `uint` field holding 5 are
reset to 0 by the empty string. -/
theorem setField_empty_string_zero_witness :
    setField exampleEnv Kind.Int8 ⟨Ty.basic Kind.Int8, Value.int 77⟩ ""
      = Res.ret ⟨Ty.basic Kind.Int8, Value.int 0⟩ none
    ∧ setField exampleEnv Kind.Uint ⟨Ty.basic Kind.Uint, Value.uint 5⟩ ""
      = Res.ret ⟨Ty.basic Kind.Uint, Value.uint 0⟩ none :=
  ⟨(setField_empty_string_zero exampleEnv Kind.Int8 ⟨Ty.basic Kind.Int8, Value.int 77⟩ rfl).2.2.1
      (by decide),
   (setField_empty_string_zero exampleEnv Kind.Uint ⟨Ty.basic Kind.Uint, Value.uint 5⟩ rfl).2.2.2.1
      (by decide)⟩

/-! ## Width-correct integer conversion -/

theorem decimalFrom_ge (ds : List Char) (n : Nat) : n ≤ decimalFrom ds n := by
  induction ds generalizing n with
  | nil => exact Nat.le_refl n
  | cons c cs ih =>
    have := ih (10 * n + (c.toNat - 48))
    rw [decimalFrom]
    omega

theorem digitVal_of_digit {c : Char} (h : isDecimalDigit c = true) :
    digitVal c = some (c.toNat - 48) ∧ c.toNat - 48 < 10 := by
  simp only [isDecimalDigit, decide_eq_true_eq] at h
  refine ⟨by simp [digitVal, h], by omega⟩

theorem parseUintLoop_digits (maxVal : Nat) (hmax : maxVal < 2 ^ 64) (ds : List Char)
    (hds : ∀ c ∈ ds, isDecimalDigit c = true) (n : Nat) (hn : n ≤ maxVal) :
    parseUintLoop maxVal ds n =
      if decimalFrom ds n ≤ maxVal then (decimalFrom ds n, none)
      else (maxVal, some NumErr.ErrRange) := by
  induction ds generalizing n with
  | nil => simp [parseUintLoop, decimalFrom, hn]
  | cons c cs ih =>
    obtain ⟨hd, hlt⟩ := digitVal_of_digit (hds c (List.mem_cons_self c cs))
    have hcs : ∀ x ∈ cs, isDecimalDigit x = true := fun x hx => hds x (List.mem_cons_of_mem c hx)
    have hge := decimalFrom_ge cs (10 * n + (c.toNat - 48))
    simp only [parseUintLoop, hd, decimalFrom, maxUint64]
    norm_num only at hmax ⊢
    have h10 : ¬ (10 ≤ c.toNat - 48) := by omega
    rw [if_neg h10]
    by_cases hcut : 1844674407370955162 ≤ n
    · rw [if_pos hcut, if_neg (by omega)]
    · rw [if_neg hcut]
      have e1 : n * 10 % 18446744073709551616 = n * 10 := Nat.mod_eq_of_lt (by omega)
      rw [e1]
      by_cases hov : n * 10 + (c.toNat - 48) < 18446744073709551616
      · have e2 : (n * 10 + (c.toNat - 48)) % 18446744073709551616 = n * 10 + (c.toNat - 48) :=
          Nat.mod_eq_of_lt hov
        rw [e2]
        by_cases hbig : n * 10 + (c.toNat - 48) > maxVal
        · rw [if_pos (Or.inr hbig), if_neg (by omega)]
        · rw [if_neg (by omega), ih hcs _ (by omega)]
          have e3 : n * 10 + (c.toNat - 48) = 10 * n + (c.toNat - 48) := by omega
          rw [e3]
      · have e2 : (n * 10 + (c.toNat - 48)) % 18446744073709551616 < n * 10 := by omega
        rw [if_pos (Or.inl e2), if_neg (by omega)]

theorem maxVal_eq {w : Nat} (hw : w ∈ [8, 16, 32, 64]) :
    (2 ^ w % 2 ^ 64 + (2 ^ 64 - 1)) % 2 ^ 64 = 2 ^ w - 1 := by
  simp only [List.mem_cons, List.mem_singleton, List.not_mem_nil, or_false] at hw
  rcases hw with h | h | h | h <;> subst h <;> norm_num

theorem width_cases {is64 : Bool} {b w : Nat} (hb : b ∈ [0, 8, 16, 32, 64])
    (hw : w = if b = 0 then IntSize is64 else b) : w ∈ [8, 16, 32, 64] := by
  simp only [List.mem_cons, List.mem_singleton, List.not_mem_nil, or_false] at hb
  rcases hb with h | h | h | h | h <;> subst h <;> cases is64 <;> simp [IntSize] at hw <;>
    subst hw <;> decide

theorem parseUintCore_digits (is64 : Bool) (ds : List Char) (hne : ds ≠ [])
    (hds : ∀ c ∈ ds, isDecimalDigit c = true) (b w : Nat) (hb : b ∈ [0, 8, 16, 32, 64])
    (hw : w = if b = 0 then IntSize is64 else b) :
    parseUintCore is64 ds b =
      if decimalValue ds ≤ 2 ^ w - 1 then (decimalValue ds, none)
      else (2 ^ w - 1, some NumErr.ErrRange) := by
  have hw4 := width_cases hb hw
  have hw64 : ¬ (w > 64) := by
    simp only [List.mem_cons, List.mem_singleton, List.not_mem_nil, or_false] at hw4
    omega
  have hlt : 2 ^ w - 1 < 2 ^ 64 := by
    simp only [List.mem_cons, List.mem_singleton, List.not_mem_nil, or_false] at hw4
    rcases hw4 with h | h | h | h <;> subst h <;> norm_num
  unfold parseUintCore
  rw [if_neg hne, ← hw]
  simp only
  rw [if_neg hw64, maxVal_eq hw4, parseUintLoop_digits _ hlt ds hds 0 (Nat.zero_le _)]
  rfl

theorem digit_ne_sign {c : Char} (h : isDecimalDigit c = true) : c ≠ '+' ∧ c ≠ '-' := by
  constructor <;> (intro hc; subst hc; revert h; decide)

theorem signDigits_append {sign ds : List Char}
    (hsign : sign = [] ∨ sign = ['+'] ∨ sign = ['-']) (hne : ds ≠ [])
    (hds : ∀ c ∈ ds, isDecimalDigit c = true) :
    signDigits (sign ++ ds) = ds ∧ isNeg (sign ++ ds) = decide (sign = ['-']) := by
  rcases hsign with h | h | h <;> subst h
  · cases ds with
    | nil => exact absurd rfl hne
    | cons c cs =>
      obtain ⟨h1, h2⟩ := digit_ne_sign (hds c (List.mem_cons_self c cs))
      simp [signDigits, isNeg, h1, h2]
  · simp [signDigits, isNeg]
  · simp [signDigits, isNeg]


theorem truncInt_id {w : Nat} (hw4 : w ∈ [8, 16, 32, 64]) {x : Int}
    (h1 : -(2 : Int) ^ (w - 1) ≤ x) (h2 : x ≤ 2 ^ (w - 1) - 1) : truncInt w x = x := by
  simp only [List.mem_cons, List.mem_singleton, List.not_mem_nil, or_false] at hw4
  rcases hw4 with h | h | h | h <;> subst h <;> unfold truncInt <;> norm_num only at h1 h2 ⊢ <;>
    split_ifs <;> omega

theorem truncInt_neg_nat {v : Nat} (h : v ≤ 2 ^ 63) :
    truncInt 64 (-(truncInt 64 (v : Int))) = -(v : Int) := by
  norm_num only at h
  by_cases hv : v = 9223372036854775808
  · subst hv; decide
  · have e1 : truncInt 64 (v : Int) = v :=
      truncInt_id (by decide) (by norm_num only; omega) (by norm_num only; omega)
    rw [e1]
    exact truncInt_id (by decide) (by norm_num only; omega) (by norm_num only; omega)

theorem cutoff_facts {w : Nat} (hw4 : w ∈ [8, 16, 32, 64]) :
    2 ^ (w - 1) % 2 ^ 64 = 2 ^ (w - 1) ∧ 2 ^ w - 1 = 2 * 2 ^ (w - 1) - 1
    ∧ 128 ≤ 2 ^ (w - 1) ∧ 2 ^ (w - 1) ≤ 2 ^ 63 := by
  simp only [List.mem_cons, List.mem_singleton, List.not_mem_nil, or_false] at hw4
  rcases hw4 with h | h | h | h <;> subst h <;> norm_num

theorem parseIntFinish_digits (is64 : Bool) (s : String) (b w : Nat)
    (hw4 : w ∈ [8, 16, 32, 64]) (hw : w = if b = 0 then IntSize is64 else b)
    (neg : Bool) (v : Nat) :
    (-(2 : Int) ^ (w - 1) ≤ (if neg = true then -(v : Int) else (v : Int))
        ∧ (if neg = true then -(v : Int) else (v : Int)) ≤ 2 ^ (w - 1) - 1 →
      parseIntFinish is64 s b neg
          (if v ≤ 2 ^ w - 1 then (v, none) else (2 ^ w - 1, some NumErr.ErrRange))
        = ((if neg = true then -(v : Int) else (v : Int)), none)) ∧
    (¬ (-(2 : Int) ^ (w - 1) ≤ (if neg = true then -(v : Int) else (v : Int))
        ∧ (if neg = true then -(v : Int) else (v : Int)) ≤ 2 ^ (w - 1) - 1) →
      (parseIntFinish is64 s b neg
          (if v ≤ 2 ^ w - 1 then (v, none) else (2 ^ w - 1, some NumErr.ErrRange))).2
        = some (Error.numError "ParseInt" s NumErr.ErrRange)) := by
  obtain ⟨hmod, hM, hlo, hhi⟩ := cutoff_facts hw4
  have hfin : ∀ un : Nat, ∀ o : Option NumErr, (o = none ∨ o = some NumErr.ErrRange) →
      parseIntFinish is64 s b neg (un, o) =
        if neg = false ∧ un ≥ 2 ^ (w - 1) then
          (truncInt 64 ((2 ^ (w - 1) - 1 : Nat) : Int),
            some (Error.numError "ParseInt" s NumErr.ErrRange))
        else if neg = true ∧ un > 2 ^ (w - 1) then
          (truncInt 64 (-(truncInt 64 ((2 ^ (w - 1) : Nat) : Int))),
            some (Error.numError "ParseInt" s NumErr.ErrRange))
        else (if neg = true then truncInt 64 (-(truncInt 64 un)) else truncInt 64 un, none) := by
    intro un o ho
    rcases ho with h | h <;> subst h <;> simp only [parseIntFinish, parseIntRange, ← hw, hmod]
  have hcast : ((2 : Int) ^ (w - 1)) = ((2 ^ (w - 1) : Nat) : Int) := by push_cast; rfl
  rw [hcast]
  generalize 2 ^ (w - 1) = C at *
  rw [hM]
  norm_num only at hhi
  cases neg
  · simp only [Bool.false_eq_true, if_false]
    constructor
    · rintro ⟨-, h2⟩
      have hv : v ≤ 2 * C - 1 := by omega
      rw [if_pos hv, hfin v none (Or.inl rfl)]
      simp only [true_and, Bool.false_eq_true, false_and, if_false]
      rw [if_neg (by omega)]
      have : truncInt 64 (v : Int) = v :=
        truncInt_id (by decide) (by norm_num only; omega) (by norm_num only; omega)
      rw [this]
    · intro hr
      have hv : C ≤ v := by omega
      split_ifs with h1
      · rw [hfin v none (Or.inl rfl)]
        simp only [true_and, ge_iff_le, hv, if_true]
      · rw [hfin _ _ (Or.inr rfl)]
        simp only [true_and, ge_iff_le]
        rw [if_pos (by omega)]
  · simp only [if_true]
    constructor
    · rintro ⟨h1, -⟩
      have hv : v ≤ 2 * C - 1 := by omega
      rw [if_pos hv, hfin v none (Or.inl rfl)]
      simp only [Bool.true_eq_false, false_and, if_false, true_and, if_true]
      rw [if_neg (by omega), truncInt_neg_nat (by norm_num only; omega)]
    · intro hr
      have hv : C < v := by omega
      split_ifs with h1
      · rw [hfin v none (Or.inl rfl)]
        simp only [Bool.true_eq_false, false_and, if_false, true_and, gt_iff_lt, hv, if_true]
      · rw [hfin _ _ (Or.inr rfl)]
        simp only [Bool.true_eq_false, false_and, if_false, true_and, gt_iff_lt]
        rw [if_pos (by omega)]

theorem string_mk_ne_empty {l : List Char} (h : l ≠ []) : ¬ ((⟨l⟩ : String) = "") := by
  intro hs
  exact h (by simpa using congrArg String.data hs)

theorem ParseInt_digits (is64 : Bool) (sign ds : List Char)
    (hsign : sign = [] ∨ sign = ['+'] ∨ sign = ['-']) (hne : ds ≠ [])
    (hds : ∀ c ∈ ds, isDecimalDigit c = true) (b w : Nat) (hb : b ∈ [0, 8, 16, 32, 64])
    (hw : w = if b = 0 then IntSize is64 else b) :
    (-(2 : Int) ^ (w - 1) ≤ signedValue sign ds ∧ signedValue sign ds ≤ 2 ^ (w - 1) - 1 →
      ParseInt is64 ⟨sign ++ ds⟩ b = (signedValue sign ds, none)) ∧
    (¬ (-(2 : Int) ^ (w - 1) ≤ signedValue sign ds ∧ signedValue sign ds ≤ 2 ^ (w - 1) - 1) →
      (ParseInt is64 ⟨sign ++ ds⟩ b).2
        = some (Error.numError "ParseInt" ⟨sign ++ ds⟩ NumErr.ErrRange)) := by
  have hw4 := width_cases hb hw
  obtain ⟨hsd, hneg⟩ := signDigits_append hsign hne hds
  have hs : ¬ ((⟨sign ++ ds⟩ : String) = "") := string_mk_ne_empty (by simp [hne])
  have hcore := parseUintCore_digits is64 ds hne hds b w hb hw
  have hsv : signedValue sign ds
      = if decide (sign = ['-']) = true then -(decimalValue ds : Int) else (decimalValue ds : Int) := by
    simp [signedValue]
  unfold ParseInt
  rw [if_neg hs]
  simp only [hsd, hneg, hcore, hsv]
  exact parseIntFinish_digits is64 _ b w hw4 hw _ _

theorem signed_kind_facts (env : Env) (field : Cell) (k : Kind) (hk : field.Kind = k)
    (hmem : k ∈ signedKinds) :
    ∃ b, b ∈ [0, 8, 16, 32, 64] ∧ bitsOf env.is64 k = (if b = 0 then IntSize env.is64 else b)
      ∧ (∀ s, setField env k field s = setInt env field s b)
      ∧ (∀ x, field.SetInt env.is64 x
          = some ⟨field.ty, Value.int (truncInt (bitsOf env.is64 k) x)⟩) := by
  simp only [signedKinds, List.mem_cons, List.mem_singleton, List.not_mem_nil, or_false] at hmem
  rcases hmem with h | h | h | h | h <;> subst h
  · exact ⟨0, by decide, by simp [bitsOf], fun s => rfl, fun x => by simp [Cell.SetInt, hk, bitsOf]⟩
  · exact ⟨8, by decide, by simp [bitsOf], fun s => rfl, fun x => by simp [Cell.SetInt, hk, bitsOf]⟩
  · exact ⟨16, by decide, by simp [bitsOf], fun s => rfl, fun x => by simp [Cell.SetInt, hk, bitsOf]⟩
  · exact ⟨32, by decide, by simp [bitsOf], fun s => rfl, fun x => by simp [Cell.SetInt, hk, bitsOf]⟩
  · exact ⟨64, by decide, by simp [bitsOf], fun s => rfl, fun x => by simp [Cell.SetInt, hk, bitsOf]⟩

theorem unsigned_kind_facts (env : Env) (field : Cell) (k : Kind) (hk : field.Kind = k)
    (hmem : k ∈ unsignedKinds) :
    ∃ b, b ∈ [0, 8, 16, 32, 64] ∧ bitsOf env.is64 k = (if b = 0 then IntSize env.is64 else b)
      ∧ (∀ s, setField env k field s = setUint env field s b)
      ∧ (∀ x, field.SetUint env.is64 x
          = some ⟨field.ty, Value.uint (x % 2 ^ (bitsOf env.is64 k))⟩) := by
  simp only [unsignedKinds, List.mem_cons, List.mem_singleton, List.not_mem_nil, or_false] at hmem
  rcases hmem with h | h | h | h | h <;> subst h
  · exact ⟨0, by decide, by simp [bitsOf], fun s => rfl, fun x => by simp [Cell.SetUint, hk, bitsOf]⟩
  · exact ⟨8, by decide, by simp [bitsOf], fun s => rfl, fun x => by simp [Cell.SetUint, hk, bitsOf]⟩
  · exact ⟨16, by decide, by simp [bitsOf], fun s => rfl, fun x => by simp [Cell.SetUint, hk, bitsOf]⟩
  · exact ⟨32, by decide, by simp [bitsOf], fun s => rfl, fun x => by simp [Cell.SetUint, hk, bitsOf]⟩
  · exact ⟨64, by decide, by simp [bitsOf], fun s => rfl, fun x => by simp [Cell.SetUint, hk, bitsOf]⟩

theorem setInt_of_ParseInt_ok {env : Env} {field : Cell} {s : String} {b : Nat} {n : Int}
    (hs : ¬ s = "") (h : ParseInt env.is64 s b = (n, none)) :
    setInt env field s b = setDone (field.SetInt env.is64 n) := by
  simp [setInt, hs, h]

theorem setInt_of_ParseInt_err {env : Env} {field : Cell} {s : String} {b : Nat} {e : Error}
    (hs : ¬ s = "") (h : (ParseInt env.is64 s b).2 = some e) :
    setInt env field s b = Res.ret field (some e) := by
  unfold setInt
  rw [if_neg hs]
  split
  · rename_i x hp; rw [hp] at h; simp at h
  · rename_i x err hp; rw [hp] at h; simp only [Option.some.injEq] at h; rw [h]

theorem setUint_of_core_ok {env : Env} {field : Cell} {s : String} {b n : Nat}
    (hs : ¬ s = "") (h : parseUintCore env.is64 s.data b = (n, none)) :
    setUint env field s b = setDone (field.SetUint env.is64 n) := by
  simp [setUint, hs, ParseUint, h]

theorem setUint_of_core_err {env : Env} {field : Cell} {s : String} {b n : Nat} {e : NumErr}
    (hs : ¬ s = "") (h : parseUintCore env.is64 s.data b = (n, some e)) :
    setUint env field s b = Res.ret field (some (Error.numError "ParseUint" s e)) := by
  simp [setUint, hs, ParseUint, h]

theorem parseUintCore_minus (is64 : Bool) (rest : List Char) (b : Nat)
    (hb : b ∈ [0, 8, 16, 32, 64]) :
    parseUintCore is64 ('-' :: rest) b = (0, some NumErr.ErrSyntax) := by
  have hw4 := width_cases hb (rfl : (if b = 0 then IntSize is64 else b) = _)
  have hw64 : ¬ ((if b = 0 then IntSize is64 else b) > 64) := by
    simp only [List.mem_cons, List.mem_singleton, List.not_mem_nil, or_false] at hw4
    omega
  unfold parseUintCore
  rw [if_neg (by simp)]
  simp only
  rw [if_neg hw64]
  have : digitVal '-' = none := by decide
  simp [parseUintLoop, this]

/-- C5: integer conversion is width-correct. For a field of a signed kind of
width `w` (`int` at the platform width) and a string made of an optional sign
and at least one decimal digit, denoting `n`: if `-2^(w-1) ≤ n ≤ 2^(w-1)-1`
then `setField` succeeds and stores exactly `n`, and otherwise it returns the
range error of `ParseInt` for that string and leaves the field as it was. For a
field of an unsigned kind and a string of decimal digits denoting `n`: if
`n ≤ 2^w-1` it succeeds and stores `n`, otherwise it returns the range error
of `ParseUint` and leaves the field as it was; and every string with a leading
'-' is rejected with a syntax error. -/
theorem setField_integer_width (env : Env) (k : Kind) (field : Cell) (hk : field.Kind = k)
    (ds : List Char) (hne : ds ≠ []) (hds : ∀ c ∈ ds, isDecimalDigit c = true) :
    (k ∈ signedKinds → ∀ sign : List Char, sign = [] ∨ sign = ['+'] ∨ sign = ['-'] →
      (-(2 : Int) ^ (bitsOf env.is64 k - 1) ≤ signedValue sign ds
          ∧ signedValue sign ds ≤ 2 ^ (bitsOf env.is64 k - 1) - 1 →
        setField env k field ⟨sign ++ ds⟩
          = Res.ret ⟨field.ty, Value.int (signedValue sign ds)⟩ none) ∧
      (¬ (-(2 : Int) ^ (bitsOf env.is64 k - 1) ≤ signedValue sign ds
          ∧ signedValue sign ds ≤ 2 ^ (bitsOf env.is64 k - 1) - 1) →
        setField env k field ⟨sign ++ ds⟩
          = Res.ret field (some (Error.numError "ParseInt" ⟨sign ++ ds⟩ NumErr.ErrRange)))) ∧
    (k ∈ unsignedKinds →
      (decimalValue ds ≤ 2 ^ bitsOf env.is64 k - 1 →
        setField env k field ⟨ds⟩ = Res.ret ⟨field.ty, Value.uint (decimalValue ds)⟩ none) ∧
      (¬ decimalValue ds ≤ 2 ^ bitsOf env.is64 k - 1 →
        setField env k field ⟨ds⟩
          = Res.ret field (some (Error.numError "ParseUint" ⟨ds⟩ NumErr.ErrRange))) ∧
      (∀ rest : List Char, setField env k field ⟨'-' :: rest⟩
          = Res.ret field (some (Error.numError "ParseUint" ⟨'-' :: rest⟩ NumErr.ErrSyntax)))) := by
  constructor
  · intro hmem sign hsign
    obtain ⟨b, hb, hw, hset, hSet⟩ := signed_kind_facts env field k hk hmem
    have hw4 := width_cases hb hw
    have hs : ¬ ((⟨sign ++ ds⟩ : String) = "") := string_mk_ne_empty (by simp [hne])
    obtain ⟨hok, herr⟩ := ParseInt_digits env.is64 sign ds hsign hne hds b _ hb hw
    constructor
    · intro hr
      rw [hset, setInt_of_ParseInt_ok hs (hok hr), hSet, truncInt_id hw4 hr.1 hr.2]
      rfl
    · intro hr
      rw [hset, setInt_of_ParseInt_err hs (herr hr)]
  · intro hmem
    obtain ⟨b, hb, hw, hset, hSet⟩ := unsigned_kind_facts env field k hk hmem
    have hw4 := width_cases hb hw
    have hcore := parseUintCore_digits env.is64 ds hne hds b _ hb hw
    have hs : ¬ ((⟨ds⟩ : String) = "") := string_mk_ne_empty hne
    refine ⟨?_, ?_, ?_⟩
    · intro hr
      rw [if_pos hr] at hcore
      rw [hset, setUint_of_core_ok hs hcore, hSet]
      have hpos : 0 < 2 ^ bitsOf env.is64 k := Nat.pow_pos (by decide)
      rw [Nat.mod_eq_of_lt (by omega)]
      rfl
    · intro hr
      rw [if_neg hr] at hcore
      rw [hset, setUint_of_core_err hs hcore]
    · intro rest
      rw [hset, setUint_of_core_err (string_mk_ne_empty (by simp))
        (parseUintCore_minus env.is64 rest b hb)]

/-- Witness of C5: an `int8` field accepts "127" and "-128" and rejects "128"
and "-129"; a `uint8` field accepts "255" and rejects "256" and "-1". -/
theorem setField_integer_width_witness :
    setField exampleEnv Kind.Int8 ⟨Ty.basic Kind.Int8, Value.int 5⟩ "127"
      = Res.ret ⟨Ty.basic Kind.Int8, Value.int 127⟩ none
    ∧ setField exampleEnv Kind.Int8 ⟨Ty.basic Kind.Int8, Value.int 5⟩ "-128"
      = Res.ret ⟨Ty.basic Kind.Int8, Value.int (-128)⟩ none
    ∧ setField exampleEnv Kind.Int8 ⟨Ty.basic Kind.Int8, Value.int 5⟩ "128"
      = Res.ret ⟨Ty.basic Kind.Int8, Value.int 5⟩
          (some (Error.numError "ParseInt" "128" NumErr.ErrRange))
    ∧ setField exampleEnv Kind.Int8 ⟨Ty.basic Kind.Int8, Value.int 5⟩ "-129"
      = Res.ret ⟨Ty.basic Kind.Int8, Value.int 5⟩
          (some (Error.numError "ParseInt" "-129" NumErr.ErrRange))
    ∧ setField exampleEnv Kind.Uint8 ⟨Ty.basic Kind.Uint8, Value.uint 5⟩ "255"
      = Res.ret ⟨Ty.basic Kind.Uint8, Value.uint 255⟩ none
    ∧ setField exampleEnv Kind.Uint8 ⟨Ty.basic Kind.Uint8, Value.uint 5⟩ "256"
      = Res.ret ⟨Ty.basic Kind.Uint8, Value.uint 5⟩
          (some (Error.numError "ParseUint" "256" NumErr.ErrRange))
    ∧ setField exampleEnv Kind.Uint8 ⟨Ty.basic Kind.Uint8, Value.uint 5⟩ "-1"
      = Res.ret ⟨Ty.basic Kind.Uint8, Value.uint 5⟩
          (some (Error.numError "ParseUint" "-1" NumErr.ErrSyntax)) :=
  ⟨((setField_integer_width exampleEnv Kind.Int8 ⟨Ty.basic Kind.Int8, Value.int 5⟩ rfl
      ['1', '2', '7'] (by decide) (by decide)).1 (by decide) [] (by decide)).1 (by decide),
   ((setField_integer_width exampleEnv Kind.Int8 ⟨Ty.basic Kind.Int8, Value.int 5⟩ rfl
      ['1', '2', '8'] (by decide) (by decide)).1 (by decide) ['-'] (by decide)).1 (by decide),
   ((setField_integer_width exampleEnv Kind.Int8 ⟨Ty.basic Kind.Int8, Value.int 5⟩ rfl
      ['1', '2', '8'] (by decide) (by decide)).1 (by decide) [] (by decide)).2 (by decide),
   ((setField_integer_width exampleEnv Kind.Int8 ⟨Ty.basic Kind.Int8, Value.int 5⟩ rfl
      ['1', '2', '9'] (by decide) (by decide)).1 (by decide) ['-'] (by decide)).2 (by decide),
   ((setField_integer_width exampleEnv Kind.Uint8 ⟨Ty.basic Kind.Uint8, Value.uint 5⟩ rfl
      ['2', '5', '5'] (by decide) (by decide)).2 (by decide)).1 (by decide),
   ((setField_integer_width exampleEnv Kind.Uint8 ⟨Ty.basic Kind.Uint8, Value.uint 5⟩ rfl
      ['2', '5', '6'] (by decide) (by decide)).2 (by decide)).2.1 (by decide),
   ((setField_integer_width exampleEnv Kind.Uint8 ⟨Ty.basic Kind.Uint8, Value.uint 5⟩ rfl
      ['2', '5', '6'] (by decide) (by decide)).2 (by decide)).2.2 ['1']⟩

/-! ## The field mapper -/

theorem Res.map_map {α β γ : Type} (f : α → β) (g : β → γ) (x : Res α) :
    (x.map f).map g = x.map (fun a => g (f a)) := by
  cases x <;> rfl

theorem Res.map_ret_eq {α β : Type} (f : α → β) (s : α) (e : Option Error) :
    (Res.ret s e).map f = Res.ret (f s) e := rfl

theorem Res.map_panic {α β : Type} (f : α → β) : (Res.panic : Res α).map f = Res.panic := rfl

theorem Res.map_id_fun {α : Type} (x : Res α) : x.map (fun a => a) = x := by
  cases x <;> rfl

/-- The loop over the fields of `a` followed by those of `b` runs the fields of
`a`, stops at their first error, and otherwise goes on with the fields of `b`. -/
theorem formToStruct_append (env : Env) (form : Values) (formFiles : Files) (a b : Record) :
    formToStruct env form formFiles (a.append b)
      = thenFields (formToStruct env form formFiles a) b (formToStruct env form formFiles b) := by
  induction a with
  | nil =>
    simp only [Record.append, formToStruct, thenFields]
    exact (Res.map_id_fun _).symm
  | leaf ft fv rest ih =>
    simp only [Record.append, formToStruct]
    split_ifs with h1 h2
    · rw [ih]; cases formToStruct env form formFiles rest with
      | panic => rfl
      | ret r1 e => cases e <;> simp [thenFields, Res.map_ret_eq, Record.append, Res.map_map]
    · rw [ih]; cases formToStruct env form formFiles rest with
      | panic => rfl
      | ret r1 e => cases e <;> simp [thenFields, Res.map_ret_eq, Record.append, Res.map_map]
    · cases bindField env form formFiles ft.formTag fv with
      | panic => rfl
      | ret c e =>
        cases e with
        | some err => simp [thenFields, Record.append]
        | none =>
          simp only
          rw [ih]; cases formToStruct env form formFiles rest with
          | panic => rfl
          | ret r1 e => cases e <;> simp [thenFields, Res.map_ret_eq, Record.append, Res.map_map]
  | nested ft inner rest _ ih =>
    simp only [Record.append, formToStruct]
    split_ifs with h1
    · rw [ih]; cases formToStruct env form formFiles rest with
      | panic => rfl
      | ret r1 e => cases e <;> simp [thenFields, Res.map_ret_eq, Record.append, Res.map_map]
    · cases formToStruct env form formFiles inner with
      | panic => rfl
      | ret c e =>
        cases e with
        | some err => simp [thenFields, Record.append]
        | none =>
          simp only
          rw [ih]; cases formToStruct env form formFiles rest with
          | panic => rfl
          | ret r1 e => cases e <;> simp [thenFields, Res.map_ret_eq, Record.append, Res.map_map]

/-- C6 (the code at the failing input): the test body `unknown=unknown` bound
into `FormBody{}` returns no error and leaves the record as it was; the field
`Unknown`, of struct kind, is recursed into and its tag is never looked up. -/
theorem formToStruct_unknown_struct_no_error :
    formToStruct exampleEnv (singleKey "unknown" ["unknown"]) noFiles FormBodyZero
      = Res.ret FormBodyZero none := by
  rfl

theorem converts_ret {env : Env} {elemTy : Ty} {raw : String} (h : converts env elemTy raw) :
    ∃ c, setField env elemTy.kind ⟨elemTy, elemTy.zero⟩ raw = Res.ret c none
      ∧ c.val = converted env elemTy raw := by
  unfold converts at h
  unfold converted
  cases hs : setField env elemTy.kind ⟨elemTy, elemTy.zero⟩ raw with
  | panic => rw [hs] at h; simp [Res.err] at h
  | ret c e =>
    rw [hs] at h
    simp only [Res.err, Option.some.injEq] at h
    subst h
    exact ⟨c, rfl, rfl⟩

theorem setSliceLoop_ok (env : Env) (elemTy : Ty) (vs : List String)
    (h : ∀ raw ∈ vs, converts env elemTy raw) :
    setSliceLoop env elemTy.kind elemTy vs = Res.ret (vs.map (converted env elemTy)) none := by
  induction vs with
  | nil => rfl
  | cons v vs ih =>
    obtain ⟨c, hc, hv⟩ := converts_ret (h v (List.mem_cons_self v vs))
    have ih1 := ih (fun raw hr => h raw (List.mem_cons_of_mem v hr))
    simp only [setSliceLoop, hc, ih1, List.map_cons, hv]

theorem setSliceLoop_fail (env : Env) (elemTy : Ty) (good : List String) (bad : String)
    (more : List String) (c : Cell) (e : Error)
    (hgood : ∀ raw ∈ good, converts env elemTy raw)
    (hbad : setField env elemTy.kind ⟨elemTy, elemTy.zero⟩ bad = Res.ret c (some e)) :
    setSliceLoop env elemTy.kind elemTy (good ++ bad :: more) = Res.ret [] (some e) := by
  induction good with
  | nil => simp only [List.nil_append, setSliceLoop, hbad]
  | cons v vs ih =>
    obtain ⟨c1, hc, -⟩ := converts_ret (hgood v (List.mem_cons_self v vs))
    have ih1 := ih (fun raw hr => hgood raw (List.mem_cons_of_mem v hr))
    rw [List.cons_append, setSliceLoop, hc]
    simp only
    rw [ih1]

theorem not_converts_fileHeaderPtr (env : Env) (raw : String) :
    ¬ converts env Ty.fileHeaderPtr raw := by
  simp [converts, setField, Ty.kind, Res.err]

theorem bindFile_slice_other (formFiles : Files) (key : String) (elemTy : Ty) (v : Value)
    (h : elemTy ≠ Ty.fileHeaderPtr) :
    bindFile formFiles key ⟨Ty.slice elemTy, v⟩ = Res.ret ⟨Ty.slice elemTy, v⟩ none := by
  unfold bindFile
  split
  · rfl
  · rw [if_neg (by simp [Ty.elem, h]), if_neg (by simp)]

theorem bindText_slice (env : Env) (form : Values) (key : String) (elemTy : Ty) (v : Value)
    (vs : List String) (hvs : form key = some vs) (hne : vs ≠ []) :
    bindText env form key ⟨Ty.slice elemTy, v⟩ = setSlice env ⟨Ty.slice elemTy, v⟩ vs := by
  unfold bindText
  rw [hvs]
  simp only
  rw [if_pos ⟨rfl, List.length_pos.2 hne⟩]

theorem formToStruct_leaf_bound (env : Env) (form : Values) (formFiles : Files)
    (m : StructField) (c : Cell) (post : Record) (hset : m.CanSet = true)
    (htag : m.formTag ≠ "") :
    formToStruct env form formFiles (Record.leaf m c post) =
      match bindField env form formFiles m.formTag c with
      | Res.panic => Res.panic
      | Res.ret fv (some err) => Res.ret (Record.leaf m fv post) (some err)
      | Res.ret fv none => (formToStruct env form formFiles post).map (Record.leaf m fv) := by
  rw [formToStruct, if_neg (by simp [hset]), if_neg htag]

/-- C7: a settable slice field with tag `k`, reached without an earlier error,
whose values `textData[k]` are a non-empty list that all convert for the
element type, is assigned exactly the list of the conversions, in the order of
the values and of the same length, whatever it held before; binding then goes
on with the later fields. -/
theorem formToStruct_slice_assign (env : Env) (form : Values) (formFiles : Files)
    (pre pre1 post : Record) (m : StructField) (elemTy : Ty) (old : Value) (vs : List String)
    (hpre : formToStruct env form formFiles pre = Res.ret pre1 none)
    (hset : m.CanSet = true) (htag : m.formTag ≠ "")
    (hvs : form m.formTag = some vs) (hne : vs ≠ [])
    (hconv : ∀ raw ∈ vs, converts env elemTy raw) :
    formToStruct env form formFiles (pre.append (Record.leaf m ⟨Ty.slice elemTy, old⟩ post))
      = (formToStruct env form formFiles post).map (fun post1 =>
          pre1.append (Record.leaf m
            ⟨Ty.slice elemTy, Value.slice (vs.map (converted env elemTy))⟩ post1))
    ∧ (vs.map (converted env elemTy)).length = vs.length
    ∧ ∀ i (hi : i < vs.length),
        (vs.map (converted env elemTy))[i]? = some (converted env elemTy vs[i]) := by
  refine ⟨?_, List.length_map _ _, fun i hi => by simp [List.getElem?_map, hi]⟩
  have hty : elemTy ≠ Ty.fileHeaderPtr := by
    intro h
    obtain ⟨v, vs1, rfl⟩ := List.exists_cons_of_ne_nil hne
    exact not_converts_fileHeaderPtr env v (h ▸ hconv v (List.mem_cons_self v vs1))
  have hb : bindField env form formFiles m.formTag ⟨Ty.slice elemTy, old⟩
      = Res.ret ⟨Ty.slice elemTy, Value.slice (vs.map (converted env elemTy))⟩ none := by
    unfold bindField
    rw [bindText_slice env form _ elemTy old vs hvs hne]
    simp only [setSlice, Ty.elem, setSliceLoop_ok env elemTy vs hconv, Cell.Set]
    exact bindFile_slice_other formFiles _ elemTy _ hty
  rw [formToStruct_append, hpre, formToStruct_leaf_bound env form formFiles m _ post hset htag, hb]
  simp only [thenFields, Res.map_map]

/-- C8: a settable slice field with tag `k`, reached without an earlier error,
whose values `textData[k]` contain an element that fails to convert: the bind
returns the error of the first such element and the field (like every later
field) keeps the value it had; the error is `errUnknownFieldType` or a
`NumError` that names the offending raw string, and it is such a `NumError`
whenever the element kind is one that `setField` converts. -/
theorem formToStruct_slice_conversion_failure (env : Env) (form : Values) (formFiles : Files)
    (pre pre1 post : Record) (m : StructField) (elemTy : Ty) (old : Value)
    (good : List String) (bad : String) (more : List String) (c : Cell) (e : Error)
    (hpre : formToStruct env form formFiles pre = Res.ret pre1 none)
    (hset : m.CanSet = true) (htag : m.formTag ≠ "")
    (hvs : form m.formTag = some (good ++ bad :: more))
    (hgood : ∀ raw ∈ good, converts env elemTy raw)
    (hbad : setField env elemTy.kind ⟨elemTy, elemTy.zero⟩ bad = Res.ret c (some e)) :
    formToStruct env form formFiles (pre.append (Record.leaf m ⟨Ty.slice elemTy, old⟩ post))
      = Res.ret (pre1.append (Record.leaf m ⟨Ty.slice elemTy, old⟩ post)) (some e)
    ∧ (e = errUnknownFieldType ∨ ∃ f kd, e = Error.numError f bad kd)
    ∧ (elemTy.kind ∈ [Kind.Bool, Kind.Int, Kind.Int8, Kind.Int16, Kind.Int32, Kind.Int64,
          Kind.Uint, Kind.Uint8, Kind.Uint16, Kind.Uint32, Kind.Uint64, Kind.Float32,
          Kind.Float64] → ∃ f kd, e = Error.numError f bad kd) := by
  refine ⟨?_, (setField_err hbad).2, ?_⟩
  · have hb : bindField env form formFiles m.formTag ⟨Ty.slice elemTy, old⟩
        = Res.ret ⟨Ty.slice elemTy, old⟩ (some e) := by
      unfold bindField
      rw [bindText_slice env form _ elemTy old _ hvs (by simp)]
      simp only [setSlice, Ty.elem, setSliceLoop_fail env elemTy good bad more c e hgood hbad]
    rw [formToStruct_append, hpre, formToStruct_leaf_bound env form formFiles m _ post hset htag,
      hb]
    simp only [thenFields, Res.map_ret_eq]
  · intro hk
    exact setField_parsed_err hk hbad

/-- Witness of C7: the test body `int_slice=1&int_slice=2&int_slice=3&int_slice=4`
gives `IntSlice = [1,2,3,4]`, also when `IntSlice` held `[9]` before. -/
theorem formToStruct_slice_assign_witness :
    formToStruct exampleEnv (singleKey "int_slice" ["1", "2", "3", "4"]) noFiles FormBodyZero
      = Res.ret (FormBodyWith [Value.int 1, Value.int 2, Value.int 3, Value.int 4]) none
    ∧ formToStruct exampleEnv (singleKey "int_slice" ["1", "2", "3", "4"]) noFiles
        (FormBodyWith [Value.int 9])
      = Res.ret (FormBodyWith [Value.int 1, Value.int 2, Value.int 3, Value.int 4]) none :=
  ⟨(formToStruct_slice_assign exampleEnv (singleKey "int_slice" ["1", "2", "3", "4"]) noFiles
      FormBodyScalars FormBodyScalars (FormBodyTail "") (exported "IntSlice" "int_slice")
      (Ty.basic Kind.Int) (Value.slice []) ["1", "2", "3", "4"] rfl rfl (by decide) rfl
      (by decide) (by decide)).1.trans rfl,
   (formToStruct_slice_assign exampleEnv (singleKey "int_slice" ["1", "2", "3", "4"]) noFiles
      FormBodyScalars FormBodyScalars (FormBodyTail "") (exported "IntSlice" "int_slice")
      (Ty.basic Kind.Int) (Value.slice [Value.int 9]) ["1", "2", "3", "4"] rfl rfl (by decide) rfl
      (by decide) (by decide)).1.trans rfl⟩

/-- Witness of C8: the test body `int_slice=foo` returns the syntax error of
`ParseInt` that names "foo"; with `int_slice=1&int_slice=foo&int_slice=3` the
error is the same and `IntSlice` keeps `[9]`. -/
theorem formToStruct_slice_conversion_failure_witness :
    formToStruct exampleEnv (singleKey "int_slice" ["foo"]) noFiles FormBodyZero
      = Res.ret FormBodyZero (some (Error.numError "ParseInt" "foo" NumErr.ErrSyntax))
    ∧ formToStruct exampleEnv (singleKey "int_slice" ["1", "foo", "3"]) noFiles
        (FormBodyWith [Value.int 9])
      = Res.ret (FormBodyWith [Value.int 9])
          (some (Error.numError "ParseInt" "foo" NumErr.ErrSyntax)) :=
  ⟨(formToStruct_slice_conversion_failure exampleEnv (singleKey "int_slice" ["foo"]) noFiles
      FormBodyScalars FormBodyScalars (FormBodyTail "") (exported "IntSlice" "int_slice")
      (Ty.basic Kind.Int) (Value.slice []) [] "foo" [] ⟨Ty.basic Kind.Int, Value.int 0⟩
      (Error.numError "ParseInt" "foo" NumErr.ErrSyntax) rfl rfl (by decide) rfl
      (by decide) rfl).1,
   (formToStruct_slice_conversion_failure exampleEnv (singleKey "int_slice" ["1", "foo", "3"])
      noFiles FormBodyScalars FormBodyScalars (FormBodyTail "") (exported "IntSlice" "int_slice")
      (Ty.basic Kind.Int) (Value.slice [Value.int 9]) ["1"] "foo" ["3"]
      ⟨Ty.basic Kind.Int, Value.int 0⟩
      (Error.numError "ParseInt" "foo" NumErr.ErrSyntax) rfl rfl (by decide) rfl
      (by decide) rfl).1⟩

theorem Record.leaves_append (a b : Record) : (a.append b).leaves = a.leaves ++ b.leaves := by
  induction a with
  | nil => rfl
  | leaf ft fv rest ih => simp [Record.append, Record.leaves, ih]
  | nested ft inner rest _ ih => simp [Record.append, Record.leaves, ih]

/-- C9: a settable field of struct kind binds like its fields declared inline
at its position: for every record with such a field, the two binds have the
same outcome (both panic, or both return, with the same error) and leave the
same leaf fields with the same values; the form tag of the nested field plays
no part. -/
theorem formToStruct_nested_inline (env : Env) (form : Values) (formFiles : Files)
    (pre inner post : Record) (m : StructField) (hset : m.CanSet = true) :
    (formToStruct env form formFiles (pre.append (Record.nested m inner post))).map Record.leaves
      = (formToStruct env form formFiles (pre.append (inner.append post))).map Record.leaves := by
  have hn : formToStruct env form formFiles (Record.nested m inner post) =
      match formToStruct env form formFiles inner with
      | Res.panic => Res.panic
      | Res.ret inner1 (some err) => Res.ret (Record.nested m inner1 post) (some err)
      | Res.ret inner1 none =>
        (formToStruct env form formFiles post).map (Record.nested m inner1) := by
    rw [formToStruct, if_neg (by simp [hset])]
  rw [formToStruct_append, formToStruct_append env form formFiles pre, hn,
    formToStruct_append env form formFiles inner]
  cases formToStruct env form formFiles pre with
  | panic => rfl
  | ret p1 e1 =>
    cases e1 with
    | some err => simp [thenFields, Res.map_ret_eq, Record.leaves_append, Record.leaves]
    | none =>
      cases formToStruct env form formFiles inner with
      | panic => rfl
      | ret i1 e2 =>
        cases e2 with
        | some err => simp [thenFields, Res.map_ret_eq, Record.leaves_append, Record.leaves]
        | none =>
          cases formToStruct env form formFiles post with
          | panic => rfl
          | ret q1 e3 => simp [thenFields, Res.map_ret_eq, Record.leaves_append, Record.leaves]

/-- Witness of C9: the test body `foobar=foobar` sets `Foobar` of the embedded
`Embedded` of `FormBody`, exactly as with `Foobar` declared in `FormBody`
itself. -/
theorem formToStruct_nested_inline_witness :
    (formToStruct exampleEnv (singleKey "foobar" ["foobar"]) noFiles
        (Record.nil.append (Record.nested (exported "Embedded" "") EmbeddedZero
          Record.nil))).map Record.leaves
      = (formToStruct exampleEnv (singleKey "foobar" ["foobar"]) noFiles
          (Record.nil.append (EmbeddedZero.append Record.nil))).map Record.leaves
    ∧ (formToStruct exampleEnv (singleKey "foobar" ["foobar"]) noFiles
          (Record.nil.append (EmbeddedZero.append Record.nil))).map Record.leaves
      = Res.ret [(exported "Foobar" "foobar", ⟨Ty.basic Kind.String, Value.string "foobar"⟩)]
          none :=
  ⟨formToStruct_nested_inline exampleEnv (singleKey "foobar" ["foobar"]) noFiles
      Record.nil EmbeddedZero Record.nil (exported "Embedded" "") rfl, rfl⟩

/-- C10: leaf fields without a form tag are skipped. Binding a record and then
dropping its untagged leaf fields is binding the record without them: the
outcome (panic, error, or success) and every other field do not depend on the
untagged fields, whatever their kind, name or value; and whenever the bind
returns, with or without an error, the untagged leaf fields, at every depth,
are as they were. -/
theorem formToStruct_untagged_skipped (env : Env) (form : Values) (formFiles : Files)
    (r : Record) :
    (formToStruct env form formFiles r).map Record.stripUntagged
      = formToStruct env form formFiles r.stripUntagged
    ∧ ∀ r1 e, formToStruct env form formFiles r = Res.ret r1 e → r1.untagged = r.untagged := by
  induction r with
  | nil =>
    refine ⟨rfl, fun r1 e h => ?_⟩
    simp only [formToStruct, Res.ret.injEq] at h
    rw [← h.1]
  | leaf ft fv rest ih =>
    obtain ⟨ih1, ih2⟩ := ih
    constructor
    · by_cases htag : ft.formTag = ""
      · simp only [formToStruct, Record.stripUntagged, htag, if_true, ite_self, Res.map_map]
        exact ih1
      · simp only [formToStruct, Record.stripUntagged, htag, if_false]
        split_ifs with h1
        · rw [Res.map_map, ← ih1, Res.map_map]
          simp only [Record.stripUntagged, htag, if_false]
        · cases bindField env form formFiles ft.formTag fv with
          | panic => rfl
          | ret c e =>
            cases e with
            | some err => simp [Res.map_ret_eq, Record.stripUntagged, htag]
            | none =>
              simp only
              rw [Res.map_map, ← ih1, Res.map_map]
              simp only [Record.stripUntagged, htag, if_false]
    · intro r1 e h
      by_cases htag : ft.formTag = ""
      · simp only [formToStruct, htag, if_true, ite_self] at h
        obtain ⟨s0, h1, h2⟩ := Res.map_ret h
        rw [h2]
        simp only [Record.untagged, htag, if_true, ih2 s0 e h1]
      · simp only [formToStruct, htag, if_false] at h
        split_ifs at h with h1
        · obtain ⟨s0, h1, h2⟩ := Res.map_ret h
          rw [h2]
          simp only [Record.untagged, htag, if_false, ih2 s0 e h1]
        · split at h
          · simp at h
          · simp only [Res.ret.injEq] at h
            rw [← h.1]
            simp only [Record.untagged, htag, if_false]
          · obtain ⟨s0, h1, h2⟩ := Res.map_ret h
            rw [h2]
            simp only [Record.untagged, htag, if_false, ih2 s0 e h1]
  | nested ft inner rest ihi ihr =>
    obtain ⟨ihi1, ihi2⟩ := ihi
    obtain ⟨ihr1, ihr2⟩ := ihr
    constructor
    · simp only [formToStruct, Record.stripUntagged]
      split_ifs with h1
      · rw [Res.map_map, ← ihr1, Res.map_map]
        simp only [Record.stripUntagged]
      · rw [← ihi1]
        cases formToStruct env form formFiles inner with
        | panic => rfl
        | ret c e =>
          cases e with
          | some err => simp [Res.map_ret_eq, Record.stripUntagged]
          | none =>
            simp only [Res.map_ret_eq]
            rw [Res.map_map, ← ihr1, Res.map_map]
            simp only [Record.stripUntagged]
    · intro r1 e h
      simp only [formToStruct] at h
      split_ifs at h with h1
      · obtain ⟨s0, h1, h2⟩ := Res.map_ret h
        rw [h2]
        simp only [Record.untagged, ihr2 s0 e h1]
      · split at h
        · simp at h
        · rename_i i1 err hi
          simp only [Res.ret.injEq] at h
          rw [← h.1]
          simp only [Record.untagged, ihi2 _ _ hi]
        · rename_i i1 hi
          obtain ⟨s0, h1, h2⟩ := Res.map_ret h
          rw [h2]
          simp only [Record.untagged, ihr2 s0 e h1, ihi2 _ _ hi]

/-- Witness of C10: `FormBody.NoTag` stays as it is, and nothing fails, when the
data has a key equal to the field name; an untagged channel field whose name is
a key of the data is neither touched nor an error. -/
theorem formToStruct_untagged_skipped_witness :
    formToStruct exampleEnv (singleKey "NoTag" ["x"]) noFiles FormBodyZero
      = Res.ret FormBodyZero none
    ∧ FormBodyZero.untagged
      = [(exported "NoTag" "", ⟨Ty.basic Kind.String, Value.string ""⟩)]
    ∧ formToStruct exampleEnv (singleKey "Ch" ["1"]) noFiles
        (Record.leaf (exported "Ch" "") ⟨Ty.basic Kind.Chan, Value.other⟩ Record.nil)
      = Res.ret (Record.leaf (exported "Ch" "") ⟨Ty.basic Kind.Chan, Value.other⟩ Record.nil)
          none :=
  ⟨rfl,
   ((formToStruct_untagged_skipped exampleEnv (singleKey "NoTag" ["x"]) noFiles FormBodyZero).2
      FormBodyZero none rfl).symm.trans rfl,
   rfl⟩

/-! ## Binding one field at its position -/

theorem bindText_absent (env : Env) (form : Values) (key : String) (c : Cell)
    (h : form key = none) : bindText env form key c = Res.ret c none := by
  unfold bindText
  rw [h]

theorem bindFile_absent (formFiles : Files) (key : String) (c : Cell)
    (h : formFiles key = none) : bindFile formFiles key c = Res.ret c none := by
  unfold bindFile
  rw [h]

/-- The bind of a record whose fields before a settable tagged leaf field raise
no error: the loop body runs on that field, an error of it ends the bind, and
otherwise the bind goes on with the later fields. -/
theorem formToStruct_at (env : Env) (form : Values) (formFiles : Files)
    (pre pre1 post : Record) (m : StructField) (c : Cell)
    (hpre : formToStruct env form formFiles pre = Res.ret pre1 none)
    (hset : m.CanSet = true) (htag : m.formTag ≠ "") :
    formToStruct env form formFiles (pre.append (Record.leaf m c post)) =
      match bindField env form formFiles m.formTag c with
      | Res.panic => Res.panic
      | Res.ret fv (some err) => Res.ret (pre1.append (Record.leaf m fv post)) (some err)
      | Res.ret fv none =>
        (formToStruct env form formFiles post).map
          (fun post1 => pre1.append (Record.leaf m fv post1)) := by
  rw [formToStruct_append, hpre, formToStruct_leaf_bound env form formFiles m c post hset htag]
  cases bindField env form formFiles m.formTag c with
  | panic => rfl
  | ret fv e =>
    cases e with
    | some err => rfl
    | none => simp only [thenFields, Res.map_map]

/-! ## File parts -/

/-- C11 (amended): file parts bind by tag when the key carries no text value.
For a settable field with tag `k`, reached without an earlier error, with `k`
absent from the text data and `fileData[k]` a non-empty list `fs`: a field whose
type is a sequence of file handles becomes the sequence of the handles of `fs`,
of the same length and in the same order, and a field whose type is a single
file handle becomes `fs[0]`; in both cases the field raises no error and the
bind goes on with the later fields. -/
theorem formToStruct_files_by_tag (env : Env) (form : Values) (formFiles : Files)
    (pre pre1 post : Record) (m : StructField) (old : Value) (fs : List FileHeader)
    (hpre : formToStruct env form formFiles pre = Res.ret pre1 none)
    (hset : m.CanSet = true) (htag : m.formTag ≠ "")
    (htext : form m.formTag = none)
    (hfile : formFiles m.formTag = some fs) (hne : fs ≠ []) :
    formToStruct env form formFiles
        (pre.append (Record.leaf m ⟨Ty.slice Ty.fileHeaderPtr, old⟩ post))
      = (formToStruct env form formFiles post).map (fun post1 =>
          pre1.append (Record.leaf m
            ⟨Ty.slice Ty.fileHeaderPtr,
              Value.slice (fs.map (fun fh => Value.file (some fh)))⟩ post1))
    ∧ (fs.map (fun fh => Value.file (some fh))).length = fs.length
    ∧ (∀ i (hi : i < fs.length),
        (fs.map (fun fh => Value.file (some fh)))[i]? = some (Value.file (some fs[i])))
    ∧ formToStruct env form formFiles
        (pre.append (Record.leaf m ⟨Ty.fileHeaderPtr, old⟩ post))
      = (formToStruct env form formFiles post).map (fun post1 =>
          pre1.append (Record.leaf m ⟨Ty.fileHeaderPtr, Value.file fs.head?⟩ post1)) := by
  refine ⟨?_, List.length_map _ _, fun i hi => by simp [List.getElem?_map, hi], ?_⟩
  · have hb : bindField env form formFiles m.formTag ⟨Ty.slice Ty.fileHeaderPtr, old⟩
        = Res.ret ⟨Ty.slice Ty.fileHeaderPtr,
            Value.slice (fs.map (fun fh => Value.file (some fh)))⟩ none := by
      unfold bindField
      rw [bindText_absent env form _ _ htext]
      simp only [bindFile, hfile]
      rw [if_pos ⟨rfl, List.length_pos.2 hne, rfl⟩]
      rfl
    rw [formToStruct_at env form formFiles pre pre1 post m _ hpre hset htag, hb]
  · obtain ⟨f0, fs1, rfl⟩ := List.exists_cons_of_ne_nil hne
    have hb : bindField env form formFiles m.formTag ⟨Ty.fileHeaderPtr, old⟩
        = Res.ret ⟨Ty.fileHeaderPtr, Value.file (some f0)⟩ none := by
      unfold bindField
      rw [bindText_absent env form _ _ htext]
      simp only [bindFile, hfile]
      rw [if_neg (by simp [Cell.Kind, Ty.kind])]
      rfl
    rw [formToStruct_at env form formFiles pre pre1 post m _ hpre hset htag, hb]
    rfl

/-- Witness of C11: the test with the single file part `file` sets `File` to
that handle, and the test with two parts `file_slice` sets `FileSlice` to the
two handles in their order. -/
theorem formToStruct_files_by_tag_witness :
    formToStruct exampleEnv noValues (singleFileKey "file" [fileTxt]) FilesBodyZero
      = Res.ret (Record.leaf (exported "File" "file") ⟨Ty.fileHeaderPtr, Value.file (some fileTxt)⟩
          (Record.leaf (exported "FileSlice" "file_slice")
            ⟨Ty.slice Ty.fileHeaderPtr, Value.slice []⟩ Record.nil)) none
    ∧ formToStruct exampleEnv noValues (singleFileKey "file_slice" [file1Txt, file2Txt])
        FilesBodyZero
      = Res.ret (Record.leaf (exported "File" "file") ⟨Ty.fileHeaderPtr, Value.file none⟩
          (Record.leaf (exported "FileSlice" "file_slice")
            ⟨Ty.slice Ty.fileHeaderPtr,
              Value.slice [Value.file (some file1Txt), Value.file (some file2Txt)]⟩
            Record.nil)) none :=
  ⟨(formToStruct_files_by_tag exampleEnv noValues (singleFileKey "file" [fileTxt])
      Record.nil Record.nil
      (Record.leaf (exported "FileSlice" "file_slice")
        ⟨Ty.slice Ty.fileHeaderPtr, Value.slice []⟩ Record.nil)
      (exported "File" "file") (Value.file none) [fileTxt] rfl rfl (by decide) rfl rfl
      (by decide)).2.2.2.trans rfl,
   (formToStruct_files_by_tag exampleEnv noValues
      (singleFileKey "file_slice" [file1Txt, file2Txt])
      (Record.leaf (exported "File" "file") ⟨Ty.fileHeaderPtr, Value.file none⟩ Record.nil)
      (Record.leaf (exported "File" "file") ⟨Ty.fileHeaderPtr, Value.file none⟩ Record.nil)
      Record.nil (exported "FileSlice" "file_slice") (Value.slice []) [file1Txt, file2Txt]
      rfl rfl (by decide) rfl rfl (by decide)).1.trans rfl⟩

/-- Counterexample to C11 as stated: with the file part `file` and also the
text value `file=x`, the bind into `FilesBody{}` returns `errUnknownFieldType`
and `File` stays nil instead of becoming the handle; likewise `FileSlice` stays
empty when `file_slice` has both a text value and two file parts. -/
theorem formToStruct_files_by_tag_counterexample :
    (formToStruct exampleEnv (singleKey "file" ["x"]) (singleFileKey "file" [fileTxt])
        FilesBodyZero
      = Res.ret FilesBodyZero (some errUnknownFieldType)
    ∧ ¬ ∃ e, formToStruct exampleEnv (singleKey "file" ["x"]) (singleFileKey "file" [fileTxt])
        FilesBodyZero
      = Res.ret (Record.leaf (exported "File" "file")
          ⟨Ty.fileHeaderPtr, Value.file (some fileTxt)⟩
          (Record.leaf (exported "FileSlice" "file_slice")
            ⟨Ty.slice Ty.fileHeaderPtr, Value.slice []⟩ Record.nil)) e)
    ∧ (formToStruct exampleEnv (singleKey "file_slice" ["x"])
        (singleFileKey "file_slice" [file1Txt, file2Txt]) FilesBodyZero
      = Res.ret FilesBodyZero (some errUnknownFieldType)
    ∧ ¬ ∃ e, formToStruct exampleEnv (singleKey "file_slice" ["x"])
        (singleFileKey "file_slice" [file1Txt, file2Txt]) FilesBodyZero
      = Res.ret (Record.leaf (exported "File" "file") ⟨Ty.fileHeaderPtr, Value.file none⟩
          (Record.leaf (exported "FileSlice" "file_slice")
            ⟨Ty.slice Ty.fileHeaderPtr,
              Value.slice [Value.file (some file1Txt), Value.file (some file2Txt)]⟩
            Record.nil)) e) := by
  have h1 : formToStruct exampleEnv (singleKey "file" ["x"]) (singleFileKey "file" [fileTxt])
      FilesBodyZero = Res.ret FilesBodyZero (some errUnknownFieldType) := rfl
  have h2 : formToStruct exampleEnv (singleKey "file_slice" ["x"])
      (singleFileKey "file_slice" [file1Txt, file2Txt]) FilesBodyZero
      = Res.ret FilesBodyZero (some errUnknownFieldType) := rfl
  refine ⟨⟨h1, ?_⟩, ⟨h2, ?_⟩⟩
  · rintro ⟨e, he⟩
    rw [h1] at he
    simp only [Res.ret.injEq] at he
    have h3 := congrArg (fun r : Record => r.leaves.map (fun p =>
      match p.2.val with
      | Value.file (some _) => 1
      | Value.slice l => l.length
      | _ => 0)) he.1
    revert h3
    decide
  · rintro ⟨e, he⟩
    rw [h2] at he
    simp only [Res.ret.injEq] at he
    have h3 := congrArg (fun r : Record => r.leaves.map (fun p =>
      match p.2.val with
      | Value.file (some _) => 1
      | Value.slice l => l.length
      | _ => 0)) he.1
    revert h3
    decide

/-! ## Single values -/

theorem setDone_ty {o : Option Cell} {c c1 : Cell} {e : Option Error}
    (ho : ∀ x, o = some x → x.ty = c.ty) (h : setDone o = Res.ret c1 e) : c1.ty = c.ty :=
  ho c1 (setDone_ret h).1

theorem Cell.SetString_ty {c x : Cell} {s : String} (h : c.SetString s = some x) :
    x.ty = c.ty := by
  unfold Cell.SetString at h
  split at h <;> simp at h
  rw [← h]

theorem Cell.SetBool_ty {c x : Cell} {b : Bool} (h : c.SetBool b = some x) : x.ty = c.ty := by
  unfold Cell.SetBool at h
  split at h <;> simp at h
  rw [← h]

theorem Cell.SetInt_ty {is64 : Bool} {c x : Cell} {n : Int} (h : c.SetInt is64 n = some x) :
    x.ty = c.ty := by
  unfold Cell.SetInt at h
  split at h <;> simp at h <;> rw [← h]

theorem Cell.SetUint_ty {is64 : Bool} {c x : Cell} {n : Nat} (h : c.SetUint is64 n = some x) :
    x.ty = c.ty := by
  unfold Cell.SetUint at h
  split at h <;> simp at h <;> rw [← h]

theorem Cell.SetFloat_ty {c x : Cell} {f : GoFloat} (h : c.SetFloat f = some x) :
    x.ty = c.ty := by
  unfold Cell.SetFloat at h
  split at h <;> simp at h <;> rw [← h]

/-- The function `setField` never changes the type of the cell. -/
theorem setField_ty {env : Env} {k : Kind} {c c1 : Cell} {s : String} {e : Option Error}
    (h : setField env k c s = Res.ret c1 e) : c1.ty = c.ty := by
  cases e with
  | some err => rw [(setField_err h).1]
  | none =>
    unfold setField at h
    split at h
    · exact setDone_ty (fun x hx => Cell.SetString_ty hx) h
    · unfold setBool at h
      split_ifs at h
      · exact setDone_ty (fun x hx => Cell.SetBool_ty hx) h
      · split at h
        · exact setDone_ty (fun x hx => Cell.SetBool_ty hx) h
        · simp at h
    all_goals first
      | (unfold setInt at h
         split_ifs at h
         · exact setDone_ty (fun x hx => Cell.SetInt_ty hx) h
         · split at h
           · exact setDone_ty (fun x hx => Cell.SetInt_ty hx) h
           · simp at h)
      | (unfold setUint at h
         split_ifs at h
         · exact setDone_ty (fun x hx => Cell.SetUint_ty hx) h
         · split at h
           · exact setDone_ty (fun x hx => Cell.SetUint_ty hx) h
           · simp at h)
      | (unfold setFloat at h
         split_ifs at h
         · exact setDone_ty (fun x hx => Cell.SetFloat_ty hx) h
         · split at h
           · exact setDone_ty (fun x hx => Cell.SetFloat_ty hx) h
           · simp at h)
      | simp at h

/-- The file half of the loop body leaves a field alone whose type is neither
a file handle nor a sequence of file handles, whatever the file data. -/
theorem bindFile_not_file (formFiles : Files) (key : String) (c : Cell)
    (h1 : c.ty ≠ Ty.fileHeaderPtr) (h2 : c.ty ≠ Ty.slice Ty.fileHeaderPtr) :
    bindFile formFiles key c = Res.ret c none := by
  unfold bindFile
  split
  · rfl
  · have h3 : c.ty.elem ≠ some Ty.fileHeaderPtr := by
      intro h
      cases hc : c.ty with
      | basic k => rw [hc] at h; simp [Ty.elem] at h
      | fileHeaderPtr => exact h1 hc
      | slice e =>
        rw [hc] at h
        simp only [Ty.elem, Option.some.injEq] at h
        exact h2 (by rw [hc, h])
    rw [if_neg (fun h => h3 h.2.2), if_neg h1]

theorem bindText_single (env : Env) (form : Values) (key : String) (c : Cell) (v : String)
    (rest : List String) (hform : form key = some (v :: rest)) (hk : c.Kind ≠ Kind.Slice) :
    bindText env form key c = setField env c.ty.kind c v := by
  unfold bindText
  rw [hform]
  simp only
  rw [if_neg (fun h => hk h.1)]

theorem supported_basic_not_file {k : Kind} (hk : k ∈ supportedKinds) :
    (Ty.basic k) ≠ Ty.fileHeaderPtr ∧ (Ty.basic k) ≠ Ty.slice Ty.fileHeaderPtr
      ∧ (Ty.basic k).kind ≠ Kind.Slice := by
  refine ⟨by simp, by simp, ?_⟩
  intro h
  simp only [Ty.kind] at h
  subst h
  revert hk
  decide

/-- C12: a single-valued field takes the first matched text value only. For a
settable field of a supported scalar kind with tag `k`, reached without an
earlier error, and `textData[k] = v :: rest`: what happens to the field and to
the bind is exactly what `setField` does with `v` for the kind of the field
(an error of it ends the bind, a success goes on with the later fields with
the converted value stored), with no part played by `rest`; for a string
field the stored value is `v` itself. -/
theorem formToStruct_single_value_first (env : Env) (form : Values) (formFiles : Files)
    (pre pre1 post : Record) (m : StructField) (k : Kind) (old : Value) (v : String)
    (rest : List String)
    (hpre : formToStruct env form formFiles pre = Res.ret pre1 none)
    (hset : m.CanSet = true) (htag : m.formTag ≠ "")
    (hk : k ∈ supportedKinds) (hform : form m.formTag = some (v :: rest)) :
    formToStruct env form formFiles (pre.append (Record.leaf m ⟨Ty.basic k, old⟩ post)) =
      (match setField env k ⟨Ty.basic k, old⟩ v with
      | Res.panic => Res.panic
      | Res.ret fv (some err) => Res.ret (pre1.append (Record.leaf m fv post)) (some err)
      | Res.ret fv none =>
        (formToStruct env form formFiles post).map
          (fun post1 => pre1.append (Record.leaf m fv post1)))
    ∧ (k = Kind.String →
        setField env k ⟨Ty.basic k, old⟩ v = Res.ret ⟨Ty.basic k, Value.string v⟩ none) := by
  obtain ⟨hf1, hf2, hns⟩ := supported_basic_not_file hk
  constructor
  · rw [formToStruct_at env form formFiles pre pre1 post m _ hpre hset htag]
    have hb : bindField env form formFiles m.formTag ⟨Ty.basic k, old⟩ =
        match setField env k ⟨Ty.basic k, old⟩ v with
        | Res.panic => Res.panic
        | Res.ret fv (some err) => Res.ret fv (some err)
        | Res.ret fv none => Res.ret fv none := by
      unfold bindField
      rw [bindText_single env form _ ⟨Ty.basic k, old⟩ v rest hform hns]
      simp only [Ty.kind]
      cases hs : setField env k ⟨Ty.basic k, old⟩ v with
      | panic => rfl
      | ret fv e =>
        cases e with
        | some err => rfl
        | none =>
          have hty := setField_ty hs
          simp only at hty ⊢
          exact bindFile_not_file formFiles _ fv (by rw [hty]; exact hf1) (by rw [hty]; exact hf2)
    rw [hb]
    cases setField env k ⟨Ty.basic k, old⟩ v with
    | panic => rfl
    | ret fv e => cases e <;> rfl
  · intro h
    subst h
    rfl

/-- Witness of C12: with `int8=7&int8=foo` the field `Int8` of `FormBody` is
set to 7 and the second value is never parsed; with `string=a&string=b` the
field `String` is "a". -/
theorem formToStruct_single_value_first_witness :
    formToStruct exampleEnv (singleKey "int8" ["7", "foo"]) noFiles
        (Record.leaf (exported "Int8" "int8") ⟨Ty.basic Kind.Int8, Value.int 0⟩ Record.nil)
      = Res.ret
          (Record.leaf (exported "Int8" "int8") ⟨Ty.basic Kind.Int8, Value.int 7⟩ Record.nil)
          none
    ∧ formToStruct exampleEnv (singleKey "string" ["a", "b"]) noFiles
        (Record.leaf (exported "String" "string") ⟨Ty.basic Kind.String, Value.string ""⟩
          Record.nil)
      = Res.ret
          (Record.leaf (exported "String" "string") ⟨Ty.basic Kind.String, Value.string "a"⟩
            Record.nil) none :=
  ⟨(formToStruct_single_value_first exampleEnv (singleKey "int8" ["7", "foo"]) noFiles
      Record.nil Record.nil Record.nil (exported "Int8" "int8") Kind.Int8 (Value.int 0)
      "7" ["foo"] rfl rfl (by decide) (by decide) rfl).1.trans rfl,
   (formToStruct_single_value_first exampleEnv (singleKey "string" ["a", "b"]) noFiles
      Record.nil Record.nil Record.nil (exported "String" "string") Kind.String
      (Value.string "") "a" ["b"] rfl rfl (by decide) (by decide) rfl).1.trans rfl⟩

/-! ## Booleans -/

/-- C13: boolean conversion accepts exactly the canonical spellings. For a bool
field and a non-empty string `s`: `setBool` stores true when `s` is one of
"1", "t", "T", "TRUE", "true", "True", stores false when `s` is one of
"0", "f", "F", "FALSE", "false", "False", and for every other `s` returns the
syntax error of `ParseBool` for `s` and leaves the field as it was. -/
theorem setBool_canonical_spellings (field : Cell) (s : String)
    (hk : field.Kind = Kind.Bool) (hs : s ≠ "") :
    (s ∈ trueSpellings → setBool field s = Res.ret ⟨field.ty, Value.bool true⟩ none) ∧
    (s ∈ falseSpellings → setBool field s = Res.ret ⟨field.ty, Value.bool false⟩ none) ∧
    (s ∉ trueSpellings → s ∉ falseSpellings →
      setBool field s
        = Res.ret field (some (Error.numError "ParseBool" s NumErr.ErrSyntax))) := by
  refine ⟨?_, ?_, ?_⟩
  · intro h
    simp only [trueSpellings, List.mem_cons, List.mem_singleton, List.not_mem_nil,
      or_false] at h
    rcases h with h | h | h | h | h | h <;> subst h <;>
      simp [setBool, ParseBool, setDone, Cell.SetBool, hk]
  · intro h
    simp only [falseSpellings, List.mem_cons, List.mem_singleton, List.not_mem_nil,
      or_false] at h
    rcases h with h | h | h | h | h | h <;> subst h <;>
      simp [setBool, ParseBool, setDone, Cell.SetBool, hk]
  · intro h1 h2
    simp only [trueSpellings, falseSpellings, List.mem_cons, List.mem_singleton,
      List.not_mem_nil, or_false, not_or] at h1 h2
    simp [setBool, ParseBool, hs, h1, h2]

/-- Witness of C13: "true" and "0" are accepted, "yes" and "TrUe" are not. -/
theorem setBool_canonical_spellings_witness :
    setBool ⟨Ty.basic Kind.Bool, Value.bool false⟩ "true"
      = Res.ret ⟨Ty.basic Kind.Bool, Value.bool true⟩ none
    ∧ setBool ⟨Ty.basic Kind.Bool, Value.bool true⟩ "0"
      = Res.ret ⟨Ty.basic Kind.Bool, Value.bool false⟩ none
    ∧ setBool ⟨Ty.basic Kind.Bool, Value.bool true⟩ "yes"
      = Res.ret ⟨Ty.basic Kind.Bool, Value.bool true⟩
          (some (Error.numError "ParseBool" "yes" NumErr.ErrSyntax))
    ∧ setBool ⟨Ty.basic Kind.Bool, Value.bool true⟩ "TrUe"
      = Res.ret ⟨Ty.basic Kind.Bool, Value.bool true⟩
          (some (Error.numError "ParseBool" "TrUe" NumErr.ErrSyntax)) :=
  ⟨(setBool_canonical_spellings ⟨Ty.basic Kind.Bool, Value.bool false⟩ "true" rfl
      (by decide)).1 (by decide),
   (setBool_canonical_spellings ⟨Ty.basic Kind.Bool, Value.bool true⟩ "0" rfl
      (by decide)).2.1 (by decide),
   (setBool_canonical_spellings ⟨Ty.basic Kind.Bool, Value.bool true⟩ "yes" rfl
      (by decide)).2.2 (by decide) (by decide),
   (setBool_canonical_spellings ⟨Ty.basic Kind.Bool, Value.bool true⟩ "TrUe" rfl
      (by decide)).2.2 (by decide) (by decide)⟩

/-! ## Absent, blank, and failing fields -/

/-- The empty string sets a cell of a supported kind to the zero value of its
type, whatever it held. -/
theorem setField_blank (env : Env) (k : Kind) (old : Value) (hk : k ∈ supportedKinds) :
    setField env k ⟨Ty.basic k, old⟩ "" = Res.ret ⟨Ty.basic k, (Ty.basic k).zero⟩ none := by
  obtain ⟨t1, t2, t3, t4, t5⟩ := truncInt_zero env.is64
  simp only [supportedKinds, List.mem_cons, List.mem_singleton, List.not_mem_nil,
    or_false] at hk
  rcases hk with h | h | h | h | h | h | h | h | h | h | h | h | h | h <;> subst h <;>
    simp [setField, setBool, setInt, setUint, setFloat, setDone, Cell.SetString, Cell.SetBool,
      Cell.SetInt, Cell.SetUint, Cell.SetFloat, Cell.Kind, Ty.kind, Ty.zero, t1, t2, t3, t4, t5]

theorem bindField_absent (env : Env) (form : Values) (formFiles : Files) (key : String)
    (c : Cell) (h1 : form key = none) (h2 : formFiles key = none) :
    bindField env form formFiles key c = Res.ret c none := by
  unfold bindField
  rw [bindText_absent env form key c h1]
  exact bindFile_absent formFiles key c h2

/-- Whenever the bind returns, the leaf fields whose key is in neither map are
as they were, at every depth. -/
theorem formToStruct_absent_frame (env : Env) (form : Values) (formFiles : Files)
    (r : Record) : ∀ r1 e, formToStruct env form formFiles r = Res.ret r1 e →
      r1.absent form formFiles = r.absent form formFiles := by
  induction r with
  | nil =>
    intro r1 e h
    simp only [formToStruct, Res.ret.injEq] at h
    rw [← h.1]
  | leaf ft fv rest ih =>
    intro r1 e h
    unfold formToStruct at h
    split_ifs at h with h1 h2
    · obtain ⟨s0, hs, h2⟩ := Res.map_ret h
      rw [h2]
      simp only [Record.absent, ih s0 e hs]
    · obtain ⟨s0, hs, h2⟩ := Res.map_ret h
      rw [h2]
      simp only [Record.absent, ih s0 e hs]
    · by_cases ha : (form ft.formTag).isNone ∧ (formFiles ft.formTag).isNone
      · have hb := bindField_absent env form formFiles ft.formTag fv
          (Option.isNone_iff_eq_none.1 ha.1) (Option.isNone_iff_eq_none.1 ha.2)
        rw [hb] at h
        obtain ⟨s0, hs, h2⟩ := Res.map_ret h
        rw [h2]
        simp only [Record.absent, ih s0 e hs]
      · split at h
        · simp at h
        · simp only [Res.ret.injEq] at h
          rw [← h.1]
          simp only [Record.absent, if_neg ha]
        · obtain ⟨s0, hs, h2⟩ := Res.map_ret h
          rw [h2]
          simp only [Record.absent, if_neg ha, ih s0 e hs]
  | nested ft inner rest ihi ihr =>
    intro r1 e h
    unfold formToStruct at h
    split_ifs at h with h1
    · obtain ⟨s0, hs, h2⟩ := Res.map_ret h
      rw [h2]
      simp only [Record.absent, ihr s0 e hs]
    · split at h
      · simp at h
      · rename_i i1 err hi
        simp only [Res.ret.injEq] at h
        rw [← h.1]
        simp only [Record.absent, ihi _ _ hi]
      · rename_i i1 hi
        obtain ⟨s0, hs, h2⟩ := Res.map_ret h
        rw [h2]
        simp only [Record.absent, ihr s0 e hs, ihi _ _ hi]

/-- C17: absent is distinguished from blank. Whenever the bind returns, every
leaf field, at every depth, whose tag is a key of neither the text data nor
the file data has the value it had before; whereas a settable numeric or
boolean field, reached without an earlier error, whose key is present with the
empty string as its first value is reset to the zero value of its kind,
whatever it held. -/
theorem formToStruct_absent_vs_blank (env : Env) (form : Values) (formFiles : Files) :
    (∀ r r1 e, formToStruct env form formFiles r = Res.ret r1 e →
      r1.absent form formFiles = r.absent form formFiles) ∧
    (∀ (pre pre1 post : Record) (m : StructField) (k : Kind) (old : Value)
      (rest : List String),
      formToStruct env form formFiles pre = Res.ret pre1 none →
      m.CanSet = true → m.formTag ≠ "" → k ∈ numericKinds →
      form m.formTag = some ("" :: rest) →
      formToStruct env form formFiles (pre.append (Record.leaf m ⟨Ty.basic k, old⟩ post))
        = (formToStruct env form formFiles post).map (fun post1 =>
            pre1.append (Record.leaf m ⟨Ty.basic k, (Ty.basic k).zero⟩ post1))) := by
  refine ⟨formToStruct_absent_frame env form formFiles, ?_⟩
  intro pre pre1 post m k old rest hpre hset htag hk hform
  have hk1 : k ∈ supportedKinds := by
    revert hk
    simp only [numericKinds, supportedKinds, List.mem_cons, List.mem_singleton,
      List.not_mem_nil, or_false]
    tauto
  obtain ⟨hf1, hf2, hns⟩ := supported_basic_not_file hk1
  have hb : bindField env form formFiles m.formTag ⟨Ty.basic k, old⟩
      = Res.ret ⟨Ty.basic k, (Ty.basic k).zero⟩ none := by
    unfold bindField
    rw [bindText_single env form _ ⟨Ty.basic k, old⟩ "" rest hform hns]
    simp only [Ty.kind]
    rw [setField_blank env k old hk1]
    exact bindFile_not_file formFiles _ _ hf1 hf2
  rw [formToStruct_at env form formFiles pre pre1 post m _ hpre hset htag, hb]

/-- Witness of C17: with the data `int8=` (blank), an `Int8` holding 5 is reset
to 0 while an `Int16` holding 6, whose key is absent, keeps 6. -/
theorem formToStruct_absent_vs_blank_witness :
    formToStruct exampleEnv (singleKey "int8" [""]) noFiles
        (Record.leaf (exported "Int8" "int8") ⟨Ty.basic Kind.Int8, Value.int 5⟩
          (Record.leaf (exported "Int16" "int16") ⟨Ty.basic Kind.Int16, Value.int 6⟩ Record.nil))
      = Res.ret
        (Record.leaf (exported "Int8" "int8") ⟨Ty.basic Kind.Int8, Value.int 0⟩
          (Record.leaf (exported "Int16" "int16") ⟨Ty.basic Kind.Int16, Value.int 6⟩ Record.nil))
        none
    ∧ (Record.leaf (exported "Int8" "int8") ⟨Ty.basic Kind.Int8, Value.int 0⟩
          (Record.leaf (exported "Int16" "int16") ⟨Ty.basic Kind.Int16, Value.int 6⟩
            Record.nil)).absent (singleKey "int8" [""]) noFiles
      = [(exported "Int16" "int16", ⟨Ty.basic Kind.Int16, Value.int 6⟩)] :=
  ⟨((formToStruct_absent_vs_blank exampleEnv (singleKey "int8" [""]) noFiles).2
      Record.nil Record.nil
      (Record.leaf (exported "Int16" "int16") ⟨Ty.basic Kind.Int16, Value.int 6⟩ Record.nil)
      (exported "Int8" "int8") Kind.Int8 (Value.int 5) [] rfl rfl (by decide) (by decide)
      rfl).trans rfl,
   ((formToStruct_absent_vs_blank exampleEnv (singleKey "int8" [""]) noFiles).1
      (Record.leaf (exported "Int8" "int8") ⟨Ty.basic Kind.Int8, Value.int 5⟩
        (Record.leaf (exported "Int16" "int16") ⟨Ty.basic Kind.Int16, Value.int 6⟩ Record.nil))
      _ none rfl).trans rfl⟩

/-! ## File-typed fields and text values -/

theorem setSlice_ty {env : Env} {c c1 : Cell} {vs : List String} {e : Option Error}
    (h : setSlice env c vs = Res.ret c1 e) : c1.ty = c.ty := by
  unfold setSlice at h
  split at h
  · simp at h
  · split at h
    · simp at h
    · simp only [Res.ret.injEq] at h; rw [← h.1]
    · simp only [Res.ret.injEq] at h; rw [← h.1]; rfl

theorem bindText_ty {env : Env} {form : Values} {key : String} {c c1 : Cell}
    {e : Option Error} (h : bindText env form key c = Res.ret c1 e) : c1.ty = c.ty := by
  unfold bindText at h
  split at h
  · simp only [Res.ret.injEq] at h; rw [← h.1]
  · split_ifs at h
    · exact setSlice_ty h
    · split at h
      · simp at h
      · exact setField_ty h

/-- The text half of the loop body on a field whose type is a file handle or a
sequence of file handles, with a value present: `errUnknownFieldType`. -/
theorem bindText_file_typed (env : Env) (form : Values) (key : String) (old : Value)
    (v : String) (rest : List String) (hform : form key = some (v :: rest)) :
    bindText env form key ⟨Ty.fileHeaderPtr, old⟩
      = Res.ret ⟨Ty.fileHeaderPtr, old⟩ (some errUnknownFieldType)
    ∧ bindText env form key ⟨Ty.slice Ty.fileHeaderPtr, old⟩
      = Res.ret ⟨Ty.slice Ty.fileHeaderPtr, old⟩ (some errUnknownFieldType) := by
  constructor
  · rw [bindText_single env form key _ v rest hform (by simp [Cell.Kind, Ty.kind])]
    rfl
  · rw [bindText_slice env form key Ty.fileHeaderPtr old (v :: rest) hform (by simp)]
    rfl

/-- C19: a file-typed field cannot coexist with a text value under its key. For
a settable field with tag `k`, reached without an earlier error: when its type
is a file handle or a sequence of file handles and `k` is present in the text
data with a non-empty list, the bind returns `errUnknownFieldType` and the
field keeps its value, whatever the file data holds under `k`; and when its
type is neither, what happens is what the text half of the loop body does
alone, so file data under `k` is neither assigned nor an error (with `k`
absent from the text data the field keeps its value and the bind goes on). -/
theorem formToStruct_file_vs_text (env : Env) (form : Values) (formFiles : Files)
    (pre pre1 post : Record) (m : StructField)
    (hpre : formToStruct env form formFiles pre = Res.ret pre1 none)
    (hset : m.CanSet = true) (htag : m.formTag ≠ "") :
    (∀ (old : Value) (v : String) (rest : List String), form m.formTag = some (v :: rest) →
      formToStruct env form formFiles (pre.append (Record.leaf m ⟨Ty.fileHeaderPtr, old⟩ post))
        = Res.ret (pre1.append (Record.leaf m ⟨Ty.fileHeaderPtr, old⟩ post))
            (some errUnknownFieldType)
      ∧ formToStruct env form formFiles
          (pre.append (Record.leaf m ⟨Ty.slice Ty.fileHeaderPtr, old⟩ post))
        = Res.ret (pre1.append (Record.leaf m ⟨Ty.slice Ty.fileHeaderPtr, old⟩ post))
            (some errUnknownFieldType)) ∧
    (∀ c : Cell, c.ty ≠ Ty.fileHeaderPtr → c.ty ≠ Ty.slice Ty.fileHeaderPtr →
      formToStruct env form formFiles (pre.append (Record.leaf m c post))
        = (match bindText env form m.formTag c with
          | Res.panic => Res.panic
          | Res.ret fv (some err) => Res.ret (pre1.append (Record.leaf m fv post)) (some err)
          | Res.ret fv none =>
            (formToStruct env form formFiles post).map
              (fun post1 => pre1.append (Record.leaf m fv post1)))
      ∧ (form m.formTag = none →
          formToStruct env form formFiles (pre.append (Record.leaf m c post))
            = (formToStruct env form formFiles post).map
                (fun post1 => pre1.append (Record.leaf m c post1)))) := by
  constructor
  · intro old v rest hform
    obtain ⟨h1, h2⟩ := bindText_file_typed env form m.formTag old v rest hform
    constructor
    · rw [formToStruct_at env form formFiles pre pre1 post m _ hpre hset htag]
      simp only [bindField, h1]
    · rw [formToStruct_at env form formFiles pre pre1 post m _ hpre hset htag]
      simp only [bindField, h2]
  · intro c hc1 hc2
    have key : formToStruct env form formFiles (pre.append (Record.leaf m c post))
        = (match bindText env form m.formTag c with
          | Res.panic => Res.panic
          | Res.ret fv (some err) => Res.ret (pre1.append (Record.leaf m fv post)) (some err)
          | Res.ret fv none =>
            (formToStruct env form formFiles post).map
              (fun post1 => pre1.append (Record.leaf m fv post1))) := by
      rw [formToStruct_at env form formFiles pre pre1 post m _ hpre hset htag]
      unfold bindField
      cases hb : bindText env form m.formTag c with
      | panic => rfl
      | ret fv e =>
        cases e with
        | some err => rfl
        | none =>
          have hty := bindText_ty hb
          simp only
          rw [bindFile_not_file formFiles _ fv (by rw [hty]; exact hc1)
            (by rw [hty]; exact hc2)]
    refine ⟨key, fun hnone => ?_⟩
    rw [key, bindText_absent env form _ c hnone]

/-- Witness of C19: with the text value `file=x` the bind into `FilesBody`
returns `errUnknownFieldType` and `File` stays nil although a file part `file`
is there; a file part named `int8` leaves an `Int8` field alone. -/
theorem formToStruct_file_vs_text_witness :
    formToStruct exampleEnv (singleKey "file" ["x"]) (singleFileKey "file" [fileTxt])
        FilesBodyZero
      = Res.ret FilesBodyZero (some errUnknownFieldType)
    ∧ formToStruct exampleEnv noValues (singleFileKey "int8" [fileTxt])
        (Record.leaf (exported "Int8" "int8") ⟨Ty.basic Kind.Int8, Value.int 5⟩ Record.nil)
      = Res.ret
        (Record.leaf (exported "Int8" "int8") ⟨Ty.basic Kind.Int8, Value.int 5⟩ Record.nil)
        none :=
  ⟨((formToStruct_file_vs_text exampleEnv (singleKey "file" ["x"])
      (singleFileKey "file" [fileTxt]) Record.nil Record.nil
      (Record.leaf (exported "FileSlice" "file_slice")
        ⟨Ty.slice Ty.fileHeaderPtr, Value.slice []⟩ Record.nil)
      (exported "File" "file") rfl rfl (by decide)).1 (Value.file none) "x" [] rfl).1,
   (((formToStruct_file_vs_text exampleEnv noValues (singleFileKey "int8" [fileTxt])
      Record.nil Record.nil Record.nil (exported "Int8" "int8") rfl rfl (by decide)).2
      ⟨Ty.basic Kind.Int8, Value.int 5⟩ (by decide) (by decide)).2 rfl).trans rfl⟩

/-! ## Fail-fast binding -/

/-- C16: failure is fail-fast, with partial mutation and no rollback. When the
fields before `g` and between `g` and `f` raise no error, `g` is bound to a
new value and the loop body fails with an error at the settable tagged field
`f`: the bind returns that error, `g` (like every earlier field that was
bound) holds its new value, `f` keeps the value it had, and the fields after
`f` are as they were. The same holds when the error is raised inside a settable
nested struct: the fields after the nested field are as they were and the
nested struct is left as the failed bind of its own fields left it. -/
theorem formToStruct_fail_fast (env : Env) (form : Values) (formFiles : Files)
    (a a1 b b1 post : Record) (mg mf : StructField) (cg cg1 cf cf1 : Cell) (e : Error)
    (ha : formToStruct env form formFiles a = Res.ret a1 none)
    (hgset : mg.CanSet = true) (hgtag : mg.formTag ≠ "")
    (hg : bindField env form formFiles mg.formTag cg = Res.ret cg1 none)
    (hb : formToStruct env form formFiles b = Res.ret b1 none)
    (hfset : mf.CanSet = true) (hftag : mf.formTag ≠ "")
    (hf : bindField env form formFiles mf.formTag cf = Res.ret cf1 (some e)) :
    formToStruct env form formFiles
        (a.append (Record.leaf mg cg (b.append (Record.leaf mf cf post))))
      = Res.ret (a1.append (Record.leaf mg cg1 (b1.append (Record.leaf mf cf post)))) (some e)
    ∧ cf1 = cf
    ∧ (∀ (inner inner1 : Record) (mn : StructField), mn.CanSet = true →
        formToStruct env form formFiles inner = Res.ret inner1 (some e) →
        formToStruct env form formFiles (a.append (Record.nested mn inner post))
          = Res.ret (a1.append (Record.nested mn inner1 post)) (some e)) := by
  have hcf := (bindField_err hf).1
  refine ⟨?_, hcf, ?_⟩
  · rw [formToStruct_at env form formFiles a a1 _ mg cg ha hgset hgtag, hg]
    simp only
    rw [formToStruct_at env form formFiles b b1 post mf cf hb hfset hftag, hf, hcf]
    rfl
  · intro inner inner1 mn hn hi
    rw [formToStruct_append, ha]
    simp only [thenFields]
    rw [formToStruct, if_neg (by simp [hn]), hi]
    rfl

/-- Witness of C16: with `int8=1&int16=foo&int32=3` the bind fails at `Int16`
with the syntax error of `ParseInt`; `Int8` holds 1, `Int16` keeps 6 and
`Int32` keeps 7. -/
theorem formToStruct_fail_fast_witness :
    formToStruct exampleEnv
        (fun key => if key = "int8" then some ["1"] else if key = "int16" then some ["foo"]
          else if key = "int32" then some ["3"] else none) noFiles
        (Record.leaf (exported "Int8" "int8") ⟨Ty.basic Kind.Int8, Value.int 5⟩
          (Record.leaf (exported "Int16" "int16") ⟨Ty.basic Kind.Int16, Value.int 6⟩
            (Record.leaf (exported "Int32" "int32") ⟨Ty.basic Kind.Int32, Value.int 7⟩
              Record.nil)))
      = Res.ret
        (Record.leaf (exported "Int8" "int8") ⟨Ty.basic Kind.Int8, Value.int 1⟩
          (Record.leaf (exported "Int16" "int16") ⟨Ty.basic Kind.Int16, Value.int 6⟩
            (Record.leaf (exported "Int32" "int32") ⟨Ty.basic Kind.Int32, Value.int 7⟩
              Record.nil)))
        (some (Error.numError "ParseInt" "foo" NumErr.ErrSyntax)) :=
  (formToStruct_fail_fast exampleEnv
    (fun key => if key = "int8" then some ["1"] else if key = "int16" then some ["foo"]
      else if key = "int32" then some ["3"] else none) noFiles
    Record.nil Record.nil Record.nil Record.nil
    (Record.leaf (exported "Int32" "int32") ⟨Ty.basic Kind.Int32, Value.int 7⟩ Record.nil)
    (exported "Int8" "int8") (exported "Int16" "int16")
    ⟨Ty.basic Kind.Int8, Value.int 5⟩ ⟨Ty.basic Kind.Int8, Value.int 1⟩
    ⟨Ty.basic Kind.Int16, Value.int 6⟩ ⟨Ty.basic Kind.Int16, Value.int 6⟩
    (Error.numError "ParseInt" "foo" NumErr.ErrSyntax)
    rfl rfl (by decide) rfl rfl rfl (by decide) rfl).1

/-! ## Panics -/

theorem setDone_some_ne_panic {o : Option Cell} (h : o ≠ none) : setDone o ≠ Res.panic := by
  cases o with
  | none => exact absurd rfl h
  | some c => simp [setDone]

theorem setBool_no_panic (c : Cell) (s : String) (hk : c.Kind = Kind.Bool) :
    setBool c s ≠ Res.panic := by
  have hset : ∀ b, c.SetBool b ≠ none := by intro b; simp [Cell.SetBool, hk]
  unfold setBool
  split_ifs
  · exact setDone_some_ne_panic (hset _)
  · split
    · exact setDone_some_ne_panic (hset _)
    · simp

theorem setInt_no_panic (env : Env) (c : Cell) (s : String) (b : Nat)
    (hk : c.Kind ∈ signedKinds) : setInt env c s b ≠ Res.panic := by
  have hset : ∀ x, c.SetInt env.is64 x ≠ none := by
    intro x
    simp only [signedKinds, List.mem_cons, List.mem_singleton, List.not_mem_nil, or_false] at hk
    rcases hk with h | h | h | h | h <;> simp [Cell.SetInt, h]
  unfold setInt
  split_ifs
  · exact setDone_some_ne_panic (hset _)
  · split
    · exact setDone_some_ne_panic (hset _)
    · simp

theorem setUint_no_panic (env : Env) (c : Cell) (s : String) (b : Nat)
    (hk : c.Kind ∈ unsignedKinds) : setUint env c s b ≠ Res.panic := by
  have hset : ∀ x, c.SetUint env.is64 x ≠ none := by
    intro x
    simp only [unsignedKinds, List.mem_cons, List.mem_singleton, List.not_mem_nil,
      or_false] at hk
    rcases hk with h | h | h | h | h <;> simp [Cell.SetUint, h]
  unfold setUint
  split_ifs
  · exact setDone_some_ne_panic (hset _)
  · split
    · exact setDone_some_ne_panic (hset _)
    · simp

theorem setFloat_no_panic (env : Env) (c : Cell) (s : String) (b : Nat)
    (hk : c.Kind = Kind.Float32 ∨ c.Kind = Kind.Float64) : setFloat env c s b ≠ Res.panic := by
  have hset : ∀ x, c.SetFloat x ≠ none := by
    intro x
    rcases hk with h | h <;> simp [Cell.SetFloat, h]
  unfold setFloat
  split_ifs
  · exact setDone_some_ne_panic (hset _)
  · split
    · exact setDone_some_ne_panic (hset _)
    · simp

/-- Called with the kind of the cell, as `formToStruct` and `setSlice` do,
`setField` does not panic. -/
theorem setField_no_panic (env : Env) (c : Cell) (s : String) :
    setField env c.ty.kind c s ≠ Res.panic := by
  have hk : c.Kind = c.ty.kind := rfl
  generalize c.ty.kind = k at hk
  cases k
  case String => exact setDone_some_ne_panic (by simp [Cell.SetString, hk])
  case Bool => exact setBool_no_panic c s hk
  case Int => exact setInt_no_panic env c s 0 (by rw [hk]; decide)
  case Int8 => exact setInt_no_panic env c s 8 (by rw [hk]; decide)
  case Int16 => exact setInt_no_panic env c s 16 (by rw [hk]; decide)
  case Int32 => exact setInt_no_panic env c s 32 (by rw [hk]; decide)
  case Int64 => exact setInt_no_panic env c s 64 (by rw [hk]; decide)
  case Uint => exact setUint_no_panic env c s 0 (by rw [hk]; decide)
  case Uint8 => exact setUint_no_panic env c s 8 (by rw [hk]; decide)
  case Uint16 => exact setUint_no_panic env c s 16 (by rw [hk]; decide)
  case Uint32 => exact setUint_no_panic env c s 32 (by rw [hk]; decide)
  case Uint64 => exact setUint_no_panic env c s 64 (by rw [hk]; decide)
  case Float32 => exact setFloat_no_panic env c s 32 (Or.inl hk)
  case Float64 => exact setFloat_no_panic env c s 64 (Or.inr hk)
  all_goals simp [setField]

theorem setSliceLoop_no_panic (env : Env) (elemTy : Ty) (vs : List String) :
    setSliceLoop env elemTy.kind elemTy vs ≠ Res.panic := by
  induction vs with
  | nil => simp [setSliceLoop]
  | cons v vs ih =>
    unfold setSliceLoop
    have h1 := setField_no_panic env ⟨elemTy, elemTy.zero⟩ v
    simp only at h1
    split
    · rename_i h; exact absurd h h1
    · simp
    · split
      · rename_i h; exact absurd h ih
      · simp
      · simp

theorem isFieldType_slice {t : Ty} (h : t.isFieldType = true) (hk : t.kind = Kind.Slice) :
    ∃ e, t = Ty.slice e := by
  cases t with
  | basic k =>
    simp only [Ty.kind] at hk
    subst hk
    simp [Ty.isFieldType] at h
  | fileHeaderPtr => simp [Ty.kind] at hk
  | slice e => exact ⟨e, rfl⟩

theorem bindText_no_panic (env : Env) (form : Values) (key : String) (c : Cell)
    (hform : nonEmptyLists form) (hty : c.ty.isFieldType = true) :
    bindText env form key c ≠ Res.panic := by
  unfold bindText
  split
  · simp
  · rename_i l hl
    split_ifs with h
    · obtain ⟨e, he⟩ := isFieldType_slice hty h.1
      unfold setSlice
      rw [he]
      simp only [Ty.elem]
      have := setSliceLoop_no_panic env e l
      split
      · rename_i h1; exact absurd h1 this
      · simp
      · simp
    · split
      · exact absurd rfl (hform key _ hl)
      · exact setField_no_panic env c _

theorem bindFile_no_panic (formFiles : Files) (key : String) (c : Cell)
    (hfiles : nonEmptyLists formFiles) : bindFile formFiles key c ≠ Res.panic := by
  unfold bindFile
  split
  · simp
  · rename_i l hl
    split_ifs
    · simp
    · split
      · exact absurd rfl (hfiles key _ hl)
      · simp
    · simp

theorem bindField_no_panic (env : Env) (form : Values) (formFiles : Files) (key : String)
    (c : Cell) (hform : nonEmptyLists form) (hfiles : nonEmptyLists formFiles)
    (hty : c.ty.isFieldType = true) : bindField env form formFiles key c ≠ Res.panic := by
  unfold bindField
  have h1 := bindText_no_panic env form key c hform hty
  split
  · rename_i h; exact absurd h h1
  · simp
  · exact bindFile_no_panic formFiles key _ hfiles

theorem Res.map_ne_panic {α β : Type} {f : α → β} {x : Res α} (h : x ≠ Res.panic) :
    x.map f ≠ Res.panic := by
  cases x with
  | panic => exact absurd rfl h
  | ret s e => simp [Res.map]

/-- Under the guarantee of the parsers, the bind of a Go struct value does not
panic. -/
theorem formToStruct_no_panic (env : Env) (form : Values) (formFiles : Files)
    (hform : nonEmptyLists form) (hfiles : nonEmptyLists formFiles) (r : Record)
    (hr : r.wellTyped = true) : formToStruct env form formFiles r ≠ Res.panic := by
  induction r with
  | nil => simp [formToStruct]
  | leaf ft fv rest ih =>
    simp only [Record.wellTyped, Bool.and_eq_true] at hr
    unfold formToStruct
    split_ifs
    · exact Res.map_ne_panic (ih hr.2)
    · exact Res.map_ne_panic (ih hr.2)
    · have h1 := bindField_no_panic env form formFiles ft.formTag fv hform hfiles hr.1
      split
      · rename_i h; exact absurd h h1
      · simp
      · exact Res.map_ne_panic (ih hr.2)
  | nested ft inner rest ihi ihr =>
    simp only [Record.wellTyped, Bool.and_eq_true] at hr
    unfold formToStruct
    split_ifs
    · exact Res.map_ne_panic (ihr hr.2)
    · have h1 := ihi hr.1
      split
      · rename_i h; exact absurd h h1
      · simp
      · exact Res.map_ne_panic (ihr hr.2)

theorem nonEmptyLists_singleKey (key v : String) (vs : List String) :
    nonEmptyLists (singleKey key (v :: vs)) := by
  intro k l h
  unfold singleKey at h
  split_ifs at h
  simp only [Option.some.injEq] at h
  rw [← h]
  simp

theorem nonEmptyLists_none {α : Type} : nonEmptyLists (fun _ => (none : Option (List α))) := by
  intro k l h
  simp at h

/-- C18: the first-element accesses of `formToStruct` are in range under the
guarantee of the parsers. When every key present in the text data and in the
file data has a non-empty list, the bind of a Go struct value never panics (it
returns). Without the guarantee the accesses are not guarded: a key present
with an empty list in the text data makes the bind panic at any settable tagged
leaf field with that key that is reached, and a key present with an empty list
in the file data (and absent from the text data) makes it panic at a field
whose type is a single file handle. -/
theorem formToStruct_first_element_access (env : Env) (form : Values) (formFiles : Files) :
    (nonEmptyLists form → nonEmptyLists formFiles → ∀ r : Record, r.wellTyped = true →
      formToStruct env form formFiles r ≠ Res.panic) ∧
    (∀ (pre pre1 post : Record) (m : StructField) (c : Cell),
      formToStruct env form formFiles pre = Res.ret pre1 none →
      m.CanSet = true → m.formTag ≠ "" → form m.formTag = some [] →
      formToStruct env form formFiles (pre.append (Record.leaf m c post)) = Res.panic) ∧
    (∀ (pre pre1 post : Record) (m : StructField) (old : Value),
      formToStruct env form formFiles pre = Res.ret pre1 none →
      m.CanSet = true → m.formTag ≠ "" → form m.formTag = none →
      formFiles m.formTag = some [] →
      formToStruct env form formFiles
        (pre.append (Record.leaf m ⟨Ty.fileHeaderPtr, old⟩ post)) = Res.panic) := by
  refine ⟨fun hform hfiles r hr => formToStruct_no_panic env form formFiles hform hfiles r hr,
    ?_, ?_⟩
  · intro pre pre1 post m c hpre hset htag hform
    rw [formToStruct_at env form formFiles pre pre1 post m c hpre hset htag]
    have hb : bindText env form m.formTag c = Res.panic := by
      unfold bindText
      rw [hform]
      simp
    simp only [bindField, hb]
  · intro pre pre1 post m old hpre hset htag hform hfile
    rw [formToStruct_at env form formFiles pre pre1 post m _ hpre hset htag]
    have hb : bindFile formFiles m.formTag ⟨Ty.fileHeaderPtr, old⟩ = Res.panic := by
      unfold bindFile
      rw [hfile]
      simp [Cell.Kind, Ty.kind]
    simp only [bindField, bindText_absent env form _ _ hform, hb]

/-- Witness of C18: `FormBody{}` binds without a panic from `int8=1`; an empty
list under `int8` makes the bind panic, and an empty list of files under `file`
makes the bind into `FilesBody{}` panic. -/
theorem formToStruct_first_element_access_witness :
    formToStruct exampleEnv (singleKey "int8" ["1"]) noFiles FormBodyZero ≠ Res.panic
    ∧ formToStruct exampleEnv (singleKey "int8" []) noFiles
        (Record.leaf (exported "Int8" "int8") ⟨Ty.basic Kind.Int8, Value.int 0⟩ Record.nil)
      = Res.panic
    ∧ formToStruct exampleEnv noValues (singleFileKey "file" []) FilesBodyZero = Res.panic :=
  ⟨(formToStruct_first_element_access exampleEnv (singleKey "int8" ["1"]) noFiles).1
      (nonEmptyLists_singleKey "int8" "1" []) nonEmptyLists_none FormBodyZero rfl,
   (formToStruct_first_element_access exampleEnv (singleKey "int8" []) noFiles).2.1
      Record.nil Record.nil Record.nil (exported "Int8" "int8")
      ⟨Ty.basic Kind.Int8, Value.int 0⟩ rfl rfl (by decide) rfl,
   (formToStruct_first_element_access exampleEnv noValues (singleFileKey "file" [])).2.2
      Record.nil Record.nil
      (Record.leaf (exported "FileSlice" "file_slice")
        ⟨Ty.slice Ty.fileHeaderPtr, Value.slice []⟩ Record.nil)
      (exported "File" "file") (Value.file none) rfl rfl (by decide) rfl rfl⟩

/-! ## Binding twice -/

theorem Cell.SetString_congr {c c1 : Cell} (h : c1.ty = c.ty) (x : String) :
    c1.SetString x = c.SetString x := by
  obtain ⟨t, v⟩ := c
  obtain ⟨t1, v1⟩ := c1
  simp only at h
  subst h
  rfl

theorem Cell.SetBool_congr {c c1 : Cell} (h : c1.ty = c.ty) (x : Bool) :
    c1.SetBool x = c.SetBool x := by
  obtain ⟨t, v⟩ := c
  obtain ⟨t1, v1⟩ := c1
  simp only at h
  subst h
  rfl

theorem Cell.SetInt_congr {c c1 : Cell} (h : c1.ty = c.ty) (is64 : Bool) (x : Int) :
    c1.SetInt is64 x = c.SetInt is64 x := by
  obtain ⟨t, v⟩ := c
  obtain ⟨t1, v1⟩ := c1
  simp only at h
  subst h
  rfl

theorem Cell.SetUint_congr {c c1 : Cell} (h : c1.ty = c.ty) (is64 : Bool) (x : Nat) :
    c1.SetUint is64 x = c.SetUint is64 x := by
  obtain ⟨t, v⟩ := c
  obtain ⟨t1, v1⟩ := c1
  simp only at h
  subst h
  rfl

theorem Cell.SetFloat_congr {c c1 : Cell} (h : c1.ty = c.ty) (x : GoFloat) :
    c1.SetFloat x = c.SetFloat x := by
  obtain ⟨t, v⟩ := c
  obtain ⟨t1, v1⟩ := c1
  simp only at h
  subst h
  rfl

theorem setBool_ok_congr {c c1 fv : Cell} {s : String} (h : c1.ty = c.ty)
    (hs : setBool c s = Res.ret fv none) : setBool c1 s = Res.ret fv none := by
  unfold setBool at hs ⊢
  simp only [Cell.SetBool_congr h]
  split_ifs at hs ⊢
  · exact hs
  · split at hs
    · exact hs
    · simp at hs

theorem setInt_ok_congr {env : Env} {c c1 fv : Cell} {s : String} {b : Nat} (h : c1.ty = c.ty)
    (hs : setInt env c s b = Res.ret fv none) : setInt env c1 s b = Res.ret fv none := by
  unfold setInt at hs ⊢
  simp only [Cell.SetInt_congr h]
  split_ifs at hs ⊢
  · exact hs
  · split at hs
    · exact hs
    · simp at hs

theorem setUint_ok_congr {env : Env} {c c1 fv : Cell} {s : String} {b : Nat}
    (h : c1.ty = c.ty)
    (hs : setUint env c s b = Res.ret fv none) : setUint env c1 s b = Res.ret fv none := by
  unfold setUint at hs ⊢
  simp only [Cell.SetUint_congr h]
  split_ifs at hs ⊢
  · exact hs
  · split at hs
    · exact hs
    · simp at hs

theorem setFloat_ok_congr {env : Env} {c c1 fv : Cell} {s : String} {b : Nat}
    (h : c1.ty = c.ty)
    (hs : setFloat env c s b = Res.ret fv none) : setFloat env c1 s b = Res.ret fv none := by
  unfold setFloat at hs ⊢
  simp only [Cell.SetFloat_congr h]
  split_ifs at hs ⊢
  · exact hs
  · split at hs
    · exact hs
    · simp at hs

/-- A successful `setField` stores a value that does not depend on what the
cell held. -/
theorem setField_ok_congr {env : Env} {k : Kind} {c c1 fv : Cell} {s : String}
    (h : c1.ty = c.ty) (hs : setField env k c s = Res.ret fv none) :
    setField env k c1 s = Res.ret fv none := by
  cases k
  case String =>
    show setDone (c1.SetString s) = _
    rw [Cell.SetString_congr h]
    exact hs
  case Bool => exact setBool_ok_congr h hs
  case Int => exact setInt_ok_congr h hs
  case Int8 => exact setInt_ok_congr h hs
  case Int16 => exact setInt_ok_congr h hs
  case Int32 => exact setInt_ok_congr h hs
  case Int64 => exact setInt_ok_congr h hs
  case Uint => exact setUint_ok_congr h hs
  case Uint8 => exact setUint_ok_congr h hs
  case Uint16 => exact setUint_ok_congr h hs
  case Uint32 => exact setUint_ok_congr h hs
  case Uint64 => exact setUint_ok_congr h hs
  case Float32 => exact setFloat_ok_congr h hs
  case Float64 => exact setFloat_ok_congr h hs
  all_goals simp [setField] at hs

theorem setSlice_ok_congr {env : Env} {c c1 fv : Cell} {vs : List String} (h : c1.ty = c.ty)
    (hs : setSlice env c vs = Res.ret fv none) : setSlice env c1 vs = Res.ret fv none := by
  unfold setSlice at hs ⊢
  rw [h]
  split at hs
  · simp at hs
  · split at hs
    · simp at hs
    · simp at hs
    · simp only [Cell.Set, Res.ret.injEq, and_true] at hs ⊢
      rw [← hs, h]

theorem bindText_ok_congr {env : Env} {form : Values} {key : String} {c c1 fv : Cell}
    (h : c1.ty = c.ty) (hpres : form key ≠ none)
    (hs : bindText env form key c = Res.ret fv none) :
    bindText env form key c1 = Res.ret fv none := by
  unfold bindText at hs ⊢
  split at hs
  · rename_i hn; exact absurd hn hpres
  · rename_i l hl
    simp only [hl, Cell.Kind, h]
    simp only [Cell.Kind] at hs
    split_ifs at hs ⊢
    · exact setSlice_ok_congr h hs
    · split at hs
      · simp at hs
      · exact setField_ok_congr h hs

theorem bindFile_idem {formFiles : Files} {key : String} {c c1 : Cell} {e : Option Error}
    (hs : bindFile formFiles key c = Res.ret c1 e) :
    bindFile formFiles key c1 = Res.ret c1 e := by
  obtain ⟨t, v⟩ := c
  unfold bindFile at hs ⊢
  split at hs
  · simp only [Res.ret.injEq] at hs
    rw [← hs.1, ← hs.2]
  · rename_i l hl
    simp only [Cell.Kind, Cell.Set] at hs
    split_ifs at hs with h1 h2
    · simp only [Res.ret.injEq] at hs
      rw [← hs.1, ← hs.2]
      simp only [hl, Cell.Kind, Cell.Set]
      rw [if_pos h1]
    · split at hs
      · simp at hs
      · simp only [Res.ret.injEq] at hs
        rw [← hs.1, ← hs.2]
        simp only [hl, Cell.Kind, Cell.Set]
        rw [if_neg h1, if_pos h2]
    · simp only [Res.ret.injEq] at hs
      rw [← hs.1, ← hs.2]
      simp only [hl, Cell.Kind, Cell.Set]
      rw [if_neg h1, if_neg h2]

theorem bindFile_ty {formFiles : Files} {key : String} {c c1 : Cell} {e : Option Error}
    (hs : bindFile formFiles key c = Res.ret c1 e) : c1.ty = c.ty := by
  unfold bindFile at hs
  split at hs
  · simp only [Res.ret.injEq] at hs; rw [← hs.1]
  · split_ifs at hs
    · simp only [Res.ret.injEq] at hs; rw [← hs.1]; rfl
    · split at hs
      · simp at hs
      · simp only [Res.ret.injEq] at hs; rw [← hs.1]; rfl
    · simp only [Res.ret.injEq] at hs; rw [← hs.1]

/-- The loop body is idempotent on a field: run again on the field it left,
with the same data, it returns the same error and leaves the same field. -/
theorem bindField_idem {env : Env} {form : Values} {formFiles : Files} {key : String}
    {c c1 : Cell} {e : Option Error}
    (hs : bindField env form formFiles key c = Res.ret c1 e) :
    bindField env form formFiles key c1 = Res.ret c1 e := by
  cases e with
  | some err =>
    have hc := (bindField_err hs).1
    subst hc
    exact hs
  | none =>
    unfold bindField at hs
    split at hs
    · simp at hs
    · simp at hs
    · rename_i fv ht
      have hty1 := bindText_ty ht
      have hty2 := bindFile_ty hs
      by_cases hpres : form key = none
      · unfold bindField
        rw [bindText_absent env form key c1 hpres]
        exact bindFile_idem hs
      · have ht1 := bindText_ok_congr (hty2.trans hty1) hpres ht
        unfold bindField
        rw [ht1]
        exact hs

/-- Whenever the bind returns, binding the record it left again, with the same
data, returns the same error and leaves the same record. -/
theorem formToStruct_idem (env : Env) (form : Values) (formFiles : Files) (r : Record) :
    ∀ r1 e, formToStruct env form formFiles r = Res.ret r1 e →
      formToStruct env form formFiles r1 = Res.ret r1 e := by
  induction r with
  | nil =>
    intro r1 e h
    simp only [formToStruct, Res.ret.injEq] at h
    rw [← h.1, ← h.2]
    rfl
  | leaf ft fv rest ih =>
    intro r1 e h
    unfold formToStruct at h
    split_ifs at h with h1 h2
    · obtain ⟨s0, hs, h3⟩ := Res.map_ret h
      rw [h3, formToStruct, if_pos h1, ih s0 e hs]
      rfl
    · obtain ⟨s0, hs, h3⟩ := Res.map_ret h
      rw [h3, formToStruct, if_neg h1, if_pos h2, ih s0 e hs]
      rfl
    · split at h
      · simp at h
      · rename_i c1 err hb
        simp only [Res.ret.injEq] at h
        rw [← h.1, ← h.2, formToStruct, if_neg h1, if_neg h2, bindField_idem hb]
      · rename_i c1 hb
        obtain ⟨s0, hs, h3⟩ := Res.map_ret h
        rw [h3, formToStruct, if_neg h1, if_neg h2, bindField_idem hb]
        simp only
        rw [ih s0 e hs]
        rfl
  | nested ft inner rest ihi ihr =>
    intro r1 e h
    unfold formToStruct at h
    split_ifs at h with h1
    · obtain ⟨s0, hs, h3⟩ := Res.map_ret h
      rw [h3, formToStruct, if_pos h1, ihr s0 e hs]
      rfl
    · split at h
      · simp at h
      · rename_i i1 err hi
        simp only [Res.ret.injEq] at h
        rw [← h.1, ← h.2, formToStruct, if_neg h1, ihi _ _ hi]
      · rename_i i1 hi
        obtain ⟨s0, hs, h3⟩ := Res.map_ret h
        rw [h3, formToStruct, if_neg h1, ihi _ _ hi]
        simp only
        rw [ihr s0 e hs]
        rfl

/-- C20: `formToStruct` is idempotent on the destination record. Whenever a
bind returns, a second bind with the same data on the record it left returns
the same error (or none) and leaves the same record; and when every present
key has a non-empty list, the bind of a Go struct value does return, so that
both runs have the same outcome and the record after two runs is the record
after one. -/
theorem formToStruct_idempotent (env : Env) (form : Values) (formFiles : Files) :
    (∀ r r1 e, formToStruct env form formFiles r = Res.ret r1 e →
      formToStruct env form formFiles r1 = Res.ret r1 e) ∧
    (nonEmptyLists form → nonEmptyLists formFiles → ∀ r : Record, r.wellTyped = true →
      ∃ r1 e, formToStruct env form formFiles r = Res.ret r1 e
        ∧ formToStruct env form formFiles r1 = Res.ret r1 e) := by
  refine ⟨formToStruct_idem env form formFiles, ?_⟩
  intro hform hfiles r hr
  have hnp := formToStruct_no_panic env form formFiles hform hfiles r hr
  cases hfs : formToStruct env form formFiles r with
  | panic => exact absurd hfs hnp
  | ret r1 e => exact ⟨r1, e, rfl, formToStruct_idem env form formFiles r r1 e hfs⟩

/-- Witness of C20: binding `int_slice=1&int_slice=2` into a `FormBody` whose
`IntSlice` is `[9]` gives `[1,2]`, and binding again gives `[1,2]` again;
binding `int_slice=foo` fails, and fails again in the same way on the record
it left. -/
theorem formToStruct_idempotent_witness :
    formToStruct exampleEnv (singleKey "int_slice" ["1", "2"]) noFiles
        (FormBodyWith [Value.int 9])
      = Res.ret (FormBodyWith [Value.int 1, Value.int 2]) none
    ∧ formToStruct exampleEnv (singleKey "int_slice" ["1", "2"]) noFiles
        (FormBodyWith [Value.int 1, Value.int 2])
      = Res.ret (FormBodyWith [Value.int 1, Value.int 2]) none
    ∧ formToStruct exampleEnv (singleKey "int_slice" ["foo"]) noFiles
        (FormBodyWith [Value.int 9])
      = Res.ret (FormBodyWith [Value.int 9])
          (some (Error.numError "ParseInt" "foo" NumErr.ErrSyntax)) :=
  ⟨rfl,
   (formToStruct_idempotent exampleEnv (singleKey "int_slice" ["1", "2"]) noFiles).1
      (FormBodyWith [Value.int 9]) (FormBodyWith [Value.int 1, Value.int 2]) none rfl,
   (formToStruct_idempotent exampleEnv (singleKey "int_slice" ["foo"]) noFiles).1
      (FormBodyWith [Value.int 9]) (FormBodyWith [Value.int 9])
      (some (Error.numError "ParseInt" "foo" NumErr.ErrSyntax)) rfl⟩


/-! ## The test "all fields empty" -/

/-- C14 (the code at the failing input): a form in which every tag of
`FormBody` is present and blank binds without an error, but `IntSlice` does not
stay nil: the single blank value of `int_slice` is converted like every other
value and `IntSlice` becomes the one-element sequence `[0]`, so the record
differs from `FormBody{}`. The same with `int_slice=` as the only key. -/
theorem BindBody_all_blank_makes_int_slice :
    BindBody formEnv (newRequest "application/x-www-form-urlencoded" (some allBlankBody))
        FormBodyZero
      = Res.ret (FormBodyWith [Value.int 0]) none
    ∧ formToStruct exampleEnv (singleKey "int_slice" [""]) noFiles FormBodyZero
      = Res.ret (FormBodyWith [Value.int 0]) none
    ∧ FormBodyWith [Value.int 0] ≠ FormBodyZero := by
  refine ⟨rfl, rfl, ?_⟩
  intro h
  have h2 := congrArg (fun r : Record => r.leaves.map (fun p =>
    match p.2.val with
    | Value.slice l => l.length
    | _ => 0)) h
  revert h2
  decide

/-- C15 (the code at the failing input): the body of the test "all fields
empty", as written, gives the key `int64` the value "uint="; the bind into
`FormBody{}` returns the syntax error of `ParseInt` for that string (every
field of the record is zero afterwards). -/
theorem BindBody_all_fields_empty_test_body :
    asValues (ParseQuery allFieldsEmptyBody).1 "int64" = some ["uint="]
    ∧ BindBody formEnv
        (newRequest "application/x-www-form-urlencoded" (some allFieldsEmptyBody)) FormBodyZero
      = Res.ret FormBodyZero (some (Error.numError "ParseInt" "uint=" NumErr.ErrSyntax)) :=
  ⟨by decide, rfl⟩

end Binder
